import Mathlib

/-!
Verification of the multiverse versioning layer of the tta-solo repository:
the branch-partitioned Entity/Event Store, the graph overlay store's
variant-resolution and similarity search, and the multiverse orchestration
service (fork / travel / archive / lineage).

The orchestration service (`src/services/multiverse.py`) and the graph driver
(`src/db/neo4j_driver.py`) are translated directly from the source.  The
Entity/Event Store implementation (`src/db/memory.py`) and the record models
(`src/models`) are not present in the source tree — only their callers and
tests are — so those parts are modelled from the specification (spec §3,
§4.1) and from the behaviour pinned down by the repository's tests; each such
definition carries a `Modelled from the spec:` doc comment.

Identifiers (UUIDs in the source) are modelled as `Nat`; timestamps as `Nat`.
Nondeterministic id generation (`uuid4`) and clock reads are modelled by
threading explicitly-supplied fresh values through the operations.
-/

namespace TTA

/-- Modelled from the spec: universe status, §3 (`status ∈ {ACTIVE, ARCHIVED}`). -/
inductive UniverseStatus where
  | active
  | archived
deriving DecidableEq, Repr

/-- Modelled from the spec: the `Universe` record, §3 (id, name, branch id,
parent id nullable, depth, status, owner, fork metadata, timestamps). -/
structure Universe where
  id : Nat
  name : String
  dolt_branch : String
  parent_universe_id : Option Nat
  depth : Nat
  status : UniverseStatus
  owner_id : Option Nat
  fork_reason : Option String
  fork_point_event_id : Option Nat
  created_at : Nat
  updated_at : Nat
deriving DecidableEq, Repr

/-- Modelled from the spec: a universe is active when its status is ACTIVE. -/
def Universe.is_active (u : Universe) : Bool :=
  u.status = UniverseStatus.active

/-- Modelled from the spec: Prime is the single root timeline, the universe
with parent = null (spec §3 invariant and glossary). -/
def Universe.is_prime_material (u : Universe) : Bool :=
  u.parent_universe_id = none

/-- Modelled from the spec: entity kinds, §3 (character, location, item,
faction). -/
inductive EntityType where
  | character
  | location
  | item
  | faction
deriving DecidableEq, Repr

/-- Modelled from the spec: the `Entity` record, §3 — a game object addressed
by id and scoped to one universe.  The `data` field stands for the remaining
gameplay attributes (hp, inventory, …) that a deep copy preserves verbatim. -/
structure Entity where
  id : Nat
  universe_id : Nat
  name : String
  entity_type : EntityType
  current_location_id : Option Nat
  created_at : Nat
  updated_at : Nat
  data : String
deriving DecidableEq, Repr

/-- Modelled from the spec: only character-type entities may travel (§4.3). -/
def Entity.is_character (e : Entity) : Bool :=
  e.entity_type = EntityType.character

/-- Modelled from the spec: event kinds named in §3 (dialogue, travel, fork). -/
inductive EventType where
  | dialogue
  | travel
  | fork
deriving DecidableEq, Repr

/-- Modelled from the spec: event outcome (§3). -/
inductive EventOutcome where
  | success
  | failure
deriving DecidableEq, Repr

/-- Modelled from the spec: the structured event payload (§3).  Only the
fields written by the orchestration operations are represented; absent keys
are `none`. -/
structure EventPayload where
  fork_reason : Option String := none
  fork_point_event_id : Option Nat := none
  parent_universe_id : Option Nat := none
  child_universe_id : Option Nat := none
  original_entity_id : Option Nat := none
  from_universe_id : Option Nat := none
  to_universe_id : Option Nat := none
  travel_method : Option String := none
deriving DecidableEq, Repr

/-- Modelled from the spec: the `Event` record, §3 — immutable timestamped
fact with type, actor, outcome, payload and optional narrative summary. -/
structure Event where
  id : Nat
  universe_id : Nat
  event_type : EventType
  actor_id : Nat
  outcome : EventOutcome
  payload : EventPayload
  timestamp : Nat
  narrative_summary : Option String
deriving DecidableEq, Repr

/-- Replace the first list element with the same key, or append (upsert). -/
def upsertBy {α : Type} (key : α → Nat) (x : α) : List α → List α
  | [] => [x]
  | y :: ys => if key y = key x then x :: ys else y :: upsertBy key x ys

/-- Modelled from the spec: one branch partition of the Entity/Event Store
(§4.1) — the universes, entities and events stored on one branch. -/
structure Partition where
  universes : List Universe
  entities : List Entity
  events : List Event
deriving DecidableEq, Repr

/-- The empty partition. -/
def Partition.empty : Partition := ⟨[], [], []⟩

/-- Modelled from the spec: the branch-partitioned Entity/Event Store (§4.1)
with its global mutable current branch (design note §9: "Global mutable
current branch state"). -/
structure DoltState where
  branches : List (String × Partition)
  current : String
deriving DecidableEq, Repr

namespace DoltState

/-- Modelled from the spec: a fresh repository has only the reserved root
branch `main`, which is the active branch. -/
def init : DoltState := ⟨[("main", Partition.empty)], "main"⟩

/-- Look up a branch's partition by name. -/
def findBranch (st : DoltState) (name : String) : Option Partition :=
  (st.branches.find? (fun bp => bp.1 = name)).map (·.2)

/-- Modelled from the spec: `branch_exists` — whether a branch is present. -/
def branch_exists (st : DoltState) (name : String) : Bool :=
  (st.findBranch name).isSome

/-- The partition of the active branch (the active branch always exists for
states built by the operations below). -/
def currentPartition (st : DoltState) : Partition :=
  (st.findBranch st.current).getD Partition.empty

/-- Apply a function to the active branch's partition. -/
def updateCurrent (st : DoltState) (f : Partition → Partition) : DoltState :=
  { st with
    branches := st.branches.map (fun bp =>
      if bp.1 = st.current then (bp.1, f bp.2) else bp) }

/-- Modelled from the spec: `create_branch(name, from_branch)` (§4.1) — fails
if `from_branch` does not exist or `name` already exists; on success the new
branch's partition is a full snapshot copy of `from_branch`'s partition.
Error strings follow the messages asserted by `tests/test_db_memory.py`. -/
def create_branch (st : DoltState) (name from_branch : String) :
    Except String DoltState :=
  match st.findBranch from_branch with
  | none => Except.error ("Branch '" ++ from_branch ++ "' does not exist")
  | some p =>
    if st.branch_exists name then
      Except.error ("Branch '" ++ name ++ "' already exists")
    else
      Except.ok { st with branches := st.branches ++ [(name, p)] }

/-- Modelled from the spec: `checkout_branch(name)` (§4.1) — switches the
store's active partition; fails if `name` does not exist. -/
def checkout_branch (st : DoltState) (name : String) : Except String DoltState :=
  if st.branch_exists name then Except.ok { st with current := name }
  else Except.error ("Branch '" ++ name ++ "' does not exist")

/-- Modelled from the spec: `save_universe` (§4.1) — upserts a universe record
into the active branch's partition, keyed by id.  (The branch-locality of
universe reads/writes is the behaviour pinned by
`tests/test_db_memory.py::test_branch_isolation` and by the re-saves to
`main` in `tests/test_multiverse.py`.) -/
def save_universe (st : DoltState) (u : Universe) : DoltState :=
  st.updateCurrent (fun p => { p with universes := upsertBy (·.id) u p.universes })

/-- Modelled from the spec: `get_universe(id)` — looks up a universe by id in
the active branch's partition. -/
def get_universe (st : DoltState) (id : Nat) : Option Universe :=
  (st.currentPartition).universes.find? (fun u => u.id = id)

/-- Modelled from the spec: `save_entity(entity)` (§4.1) — upserts an entity
into the active branch's partition, keyed by id. -/
def save_entity (st : DoltState) (e : Entity) : DoltState :=
  st.updateCurrent (fun p => { p with entities := upsertBy (·.id) e p.entities })

/-- Modelled from the spec: `get_entity(id, universe_id)` (§4.1) — reads are
partitioned by branch; an id saved under a different universe returns
not-found (`tests/test_db_memory.py::test_get_entity_wrong_universe`). -/
def get_entity (st : DoltState) (id universe_id : Nat) : Option Entity :=
  (st.currentPartition).entities.find?
    (fun e => e.id = id && e.universe_id = universe_id)

/-- Modelled from the spec: `append_event(event)` (§4.1) — appends to the
active branch's partition. -/
def append_event (st : DoltState) (ev : Event) : DoltState :=
  st.updateCurrent (fun p => { p with events := p.events ++ [ev] })

/-- Stable insertion into an ascending-by-timestamp list: an element with an
equal timestamp keeps its earlier position (ties broken by insertion order,
spec §3). -/
def insertByTime (e : Event) : List Event → List Event
  | [] => [e]
  | x :: xs =>
    if x.timestamp < e.timestamp then x :: insertByTime e xs else e :: x :: xs

/-- Stable ascending-by-timestamp insertion sort. -/
def sortByTime : List Event → List Event
  | [] => []
  | x :: xs => insertByTime x (sortByTime xs)

/-- Modelled from the spec: `get_events(universe_id)` (§4.1) — the events of
one universe on the active branch, in ascending timestamp order. -/
def get_events (st : DoltState) (universe_id : Nat) : List Event :=
  sortByTime ((st.currentPartition).events.filter (fun e => e.universe_id = universe_id))

end DoltState

/-! ## Graph Overlay Store

Translated from `src/db/neo4j_driver.py` (class `Neo4jRepository`).  Graph
nodes carry the properties the driver writes (`id`, `name`, `type`,
`universe_id`, `is_variant`, `embedding`); a property not yet set is `none`.
The driver stores `universe_id` as a string (`str(uuid)` or the literal
`'prime'`); this is modelled by `GUniv`. -/

/-- A universe reference as stored on a graph node: either the literal
string `'prime'` or a universe id string. -/
inductive GUniv where
  | prime
  | uid (n : Nat)
deriving DecidableEq, Repr

/-- A graph `:Entity` node with the properties written by the driver. -/
structure GNode where
  id : Nat
  name : Option String
  etype : Option String
  universe_id : Option GUniv
  is_variant : Bool
  embedding : Option (List ℚ)
deriving DecidableEq, Repr

/-- A `VARIANT_OF` edge from a variant node to its original, carrying the
`changes` map (`create_variant_node`). -/
structure VariantEdge where
  variant_id : Nat
  original_id : Nat
  changes : List (String × String)
deriving DecidableEq, Repr

/-- The graph overlay store state (nodes and `VARIANT_OF` edges; the
relationship and memory edges are not needed by the properties below). -/
structure GraphState where
  nodes : List GNode
  variantEdges : List VariantEdge
deriving DecidableEq, Repr

namespace GraphState

/-- The empty graph. -/
def empty : GraphState := ⟨[], []⟩

/-- Node lookup by id (node ids are unique: the driver declares the
`entity_id_unique` constraint). -/
def findNode (g : GraphState) (id : Nat) : Option GNode :=
  g.nodes.find? (fun n => n.id = id)

/-- `MERGE (e:Entity {id: $entity_id})`: reuse the node with that id, or
create a bare node carrying only the id. -/
def mergeNode (g : GraphState) (id : Nat) : GraphState :=
  if (g.findNode id).isSome then g
  else { g with nodes := g.nodes ++ [⟨id, none, none, none, false, none⟩] }

/-- `register_entity(id, name, type, universe_id)`: `MERGE` the node by id
then `SET` its name, type and universe id (other properties are kept). -/
def register_entity (g : GraphState) (id : Nat) (name : String)
    (entity_type : String) (universe_id : Option GUniv) : GraphState :=
  let g := g.mergeNode id
  { g with
    nodes := g.nodes.map (fun n =>
      if n.id = id then
        { n with name := some name, etype := some entity_type,
                 universe_id := universe_id }
      else n) }

/-- `create_variant_node(original, variant, variant_universe, changes)`:
`MERGE` the original by id, `CREATE` a fresh variant node holding only
`id`, `universe_id` and `is_variant: true`, and `CREATE` the `VARIANT_OF`
edge tagged with `changes`. -/
def create_variant_node (g : GraphState) (original_entity_id variant_entity_id : Nat)
    (variant_universe_id : Nat) (changes : List (String × String)) : GraphState :=
  let g := g.mergeNode original_entity_id
  { g with
    nodes := g.nodes ++
      [⟨variant_entity_id, none, none, some (GUniv.uid variant_universe_id),
        true, none⟩],
    variantEdges := g.variantEdges ++
      [⟨variant_entity_id, original_entity_id, changes⟩] }

/-- `has_variant(original, universe_id)`: some `VARIANT_OF` edge into the
original whose variant node's `universe_id` equals the given universe. -/
def has_variant (g : GraphState) (original_entity_id universe_id : Nat) : Bool :=
  g.variantEdges.any (fun ed =>
    ed.original_id = original_entity_id &&
    (g.findNode ed.variant_id).any
      (fun v => v.universe_id = some (GUniv.uid universe_id)))

/-- The interpolated type filter `AND e.type = $entity_type`: with no filter
every node passes; with a filter the node's `type` property must equal it (a
node without the property never passes, as Cypher `null = value` is not
true). -/
def typeMatch (entity_type : Option String) (n : GNode) : Bool :=
  match entity_type with
  | none => true
  | some t => n.etype = some t

/-- Whether a node's `universe_id` marks it as Prime:
`e.universe_id IS NULL OR e.universe_id = 'prime'`. -/
def primeRef (u : Option GUniv) : Bool :=
  u = none || u = some GUniv.prime

/-- The step-3 guard `NOT EXISTS { MATCH (v)-[:VARIANT_OF]->(e) WHERE
v.universe_id = $universe_id }`: no variant of the node exists in the given
universe. -/
def noVariantIn (g : GraphState) (original_id universe_id : Nat) : Bool :=
  !(g.variantEdges.any (fun ed =>
    ed.original_id = original_id &&
    (g.findNode ed.variant_id).any
      (fun v => v.universe_id = some (GUniv.uid universe_id))))

/-- `get_entity_in_universe(name, universe_id, type?)`: the three-step
resolution of the driver, first match wins.  Step 2's query text interpolates
the type filter `AND e.type = $entity_type` into a `MATCH` that binds only
`variant` and `original`; when a type filter is supplied and step 1 found
nothing, Neo4j therefore rejects the query with an undefined-variable error,
modelled as `Except.error`. -/
def get_entity_in_universe (g : GraphState) (entity_name : String)
    (universe_id : Nat) (entity_type : Option String) :
    Except String (Option Nat) :=
  match g.nodes.find? (fun n =>
      n.name = some entity_name &&
      n.universe_id = some (GUniv.uid universe_id) &&
      typeMatch entity_type n) with
  | some n => Except.ok (some n.id)
  | none =>
    if entity_type.isSome then
      Except.error "Variable e not defined"
    else
      match g.variantEdges.find? (fun ed =>
          (g.findNode ed.original_id).any (fun o => o.name = some entity_name) &&
          (g.findNode ed.variant_id).any
            (fun v => v.universe_id = some (GUniv.uid universe_id))) with
      | some ed => Except.ok (some ed.variant_id)
      | none =>
        match g.nodes.find? (fun n =>
            n.name = some entity_name &&
            primeRef n.universe_id &&
            noVariantIn g n.id universe_id &&
            typeMatch entity_type n) with
        | some n => Except.ok (some n.id)
        | none => Except.ok none

/-- `set_embedding(entity_id, embedding)`: `MATCH` (not `MERGE`) by id and
`SET` the embedding — a no-op when the node does not exist. -/
def set_embedding (g : GraphState) (entity_id : Nat) (embedding : List ℚ) :
    GraphState :=
  { g with
    nodes := g.nodes.map (fun n =>
      if n.id = entity_id then { n with embedding := some embedding } else n) }

/-- Descending-by-score stable insertion (`ORDER BY similarity DESC`; an
element with an equal score keeps its earlier position, so ties are broken
deterministically by store order). -/
def insertDesc (x : Nat × ℚ) : List (Nat × ℚ) → List (Nat × ℚ)
  | [] => [x]
  | y :: ys => if x.2 ≤ y.2 then y :: insertDesc x ys else x :: y :: ys

/-- Descending-by-score stable insertion sort. -/
def sortDesc : List (Nat × ℚ) → List (Nat × ℚ)
  | [] => []
  | x :: xs => insertDesc x (sortDesc xs)

/-- The scoring stage of `similarity_search`: the entities of the universe
that have an embedding, paired with their similarity under `sim`, kept only
when the score is strictly positive (`WHERE similarity > 0`). -/
def scoredCandidates (sim : List ℚ → List ℚ → ℚ) (g : GraphState)
    (query_embedding : List ℚ) (universe_id : Nat) : List (Nat × ℚ) :=
  g.nodes.filterMap (fun n =>
    match n.embedding with
    | none => none
    | some emb =>
      if n.universe_id = some (GUniv.uid universe_id) then
        let s := sim query_embedding emb
        if 0 < s then some (n.id, s) else none
      else none)

/-- `similarity_search(query_embedding, universe_id, limit)`: the scored
candidates (scored by `sim`, the external `gds.similarity.cosine`, supplied
as a parameter), sorted descending and truncated to `limit`. -/
def similarity_search (sim : List ℚ → List ℚ → ℚ) (g : GraphState)
    (query_embedding : List ℚ) (universe_id : Nat) (limit : Nat) :
    List (Nat × ℚ) :=
  (sortDesc (scoredCandidates sim g query_embedding universe_id)).take limit

end GraphState

/-! ## Multiverse Orchestration Service

Translated from `src/services/multiverse.py` (class `MultiverseService`).
The service composes the two stores; its state is the pair of store states.
`uuid4()` calls and `datetime.utcnow()` reads are modelled by explicit
`fresh…` / `now` arguments.  Results are `Except`-wrapped: `Except.error`
models an uncaught store exception (e.g. `checkout_branch` raising on a
missing branch) propagating out of the service, paired with the store state
at the point of the raise. -/

/-- The combined state of the two stores held by `MultiverseService`. -/
structure World where
  dolt : DoltState
  graph : GraphState
deriving DecidableEq, Repr

/-- `ForkResult` (src/services/multiverse.py); the source's `universe` field
is spelled `universe'` (`universe` is a Lean keyword). -/
structure ForkResult where
  success : Bool
  universe' : Option Universe := none
  fork_event : Option Event := none
  error : Option String := none
deriving DecidableEq, Repr

/-- `TravelResult` (src/services/multiverse.py). -/
structure TravelResult where
  success : Bool
  traveler_copy_id : Option Nat := none
  destination_universe_id : Option Nat := none
  travel_event : Option Event := none
  error : Option String := none
deriving DecidableEq, Repr

/-- The string form of a status, as interpolated into fork's error message. -/
def statusText : UniverseStatus → String
  | UniverseStatus.active => "active"
  | UniverseStatus.archived => "archived"

/-- Modelled from the spec: `create_prime_material(name)` — the root
universe: parent null, depth 0, branch `main`, status ACTIVE (spec §3 and
`tests/test_multiverse.py::TestInitializePrimeMaterial`). -/
def create_prime_material (name : String) (freshId now : Nat) : Universe :=
  { id := freshId, name := name, dolt_branch := "main",
    parent_universe_id := none, depth := 0,
    status := UniverseStatus.active, owner_id := none,
    fork_reason := none, fork_point_event_id := none,
    created_at := now, updated_at := now }

/-- Modelled from the spec: the fresh branch name of a fork — unique, derived
from the owner if given, otherwise anonymous (spec §4.3 step 3; the test
asserts `"user/{player_id}"` occurs in the branch name). -/
def forkBranchName (owner_id : Option Nat) (freshId : Nat) : String :=
  match owner_id with
  | some p => "user/" ++ toString p ++ "/fork-" ++ toString freshId
  | none => "anon/fork-" ++ toString freshId

/-- Modelled from the spec: `create_fork(parent, name, owner_id, fork_reason,
fork_point_event_id)` — the child record: parent id = parent's id, depth =
parent.depth + 1, a fresh branch name, status ACTIVE (spec §4.3 step 3). -/
def create_fork (parent : Universe) (name : String) (owner_id : Option Nat)
    (fork_reason : String) (fork_point_event_id : Option Nat)
    (freshId now : Nat) : Universe :=
  { id := freshId, name := name,
    dolt_branch := forkBranchName owner_id freshId,
    parent_universe_id := some parent.id, depth := parent.depth + 1,
    status := UniverseStatus.active, owner_id := owner_id,
    fork_reason := some fork_reason,
    fork_point_event_id := fork_point_event_id,
    created_at := now, updated_at := now }

/-- Modelled from the spec: `create_fork_event(parent, child, actor,
fork_reason, fork_point_event_id)` — a FORK event on the child universe whose
payload carries the fork reason and optional fork-point event id (spec §4.3
step 7). -/
def create_fork_event (parent_universe_id child_universe_id actor_id : Nat)
    (fork_reason : String) (fork_point_event_id : Option Nat)
    (freshId now : Nat) : Event :=
  { id := freshId, universe_id := child_universe_id,
    event_type := EventType.fork, actor_id := actor_id,
    outcome := EventOutcome.success,
    payload := { fork_reason := some fork_reason,
                 fork_point_event_id := fork_point_event_id,
                 parent_universe_id := some parent_universe_id,
                 child_universe_id := some child_universe_id },
    timestamp := now, narrative_summary := none }

/-- `initialize_prime_material(name)`: create the Prime record and save it
(on the active branch, `main` in a fresh store). -/
def initialize_prime_material (w : World) (name : String) (freshId now : Nat) :
    Universe × World :=
  let prime := create_prime_material name freshId now
  (prime, ⟨w.dolt.save_universe prime, w.graph⟩)

/-- `fork_universe(parent_universe_id, new_universe_name, fork_reason,
player_id, fork_point_event_id)`, translated step for step from
`src/services/multiverse.py`: parent lookup, active check, child record
construction, parent-branch existence check, branch creation (a
`ValueError` is caught and returned as a failure), checkout of the child
branch, save of the child record, and append of the FORK event with
actor = player id or a synthesized system actor id. -/
def fork_universe (w : World) (parent_universe_id : Nat)
    (new_universe_name fork_reason : String) (player_id : Option Nat)
    (fork_point_event_id : Option Nat)
    (freshUniverseId sysActorId freshEventId now : Nat) :
    Except String ForkResult × World :=
  match w.dolt.get_universe parent_universe_id with
  | none =>
    (Except.ok
      { success := false,
        error := some ("Parent universe " ++ toString parent_universe_id ++
          " not found") }, w)
  | some parent =>
    if !parent.is_active then
      (Except.ok
        { success := false,
          error := some ("Cannot fork from inactive universe (status: " ++
            statusText parent.status ++ ")") }, w)
    else
      let new_universe := create_fork parent new_universe_name player_id
        fork_reason fork_point_event_id freshUniverseId now
      if !w.dolt.branch_exists parent.dolt_branch then
        (Except.ok
          { success := false,
            error := some ("Parent Dolt branch '" ++ parent.dolt_branch ++
              "' does not exist") }, w)
      else
        match w.dolt.create_branch new_universe.dolt_branch parent.dolt_branch with
        | Except.error e => (Except.ok { success := false, error := some e }, w)
        | Except.ok d1 =>
          match d1.checkout_branch new_universe.dolt_branch with
          | Except.error e => (Except.error e, ⟨d1, w.graph⟩)
          | Except.ok d2 =>
            let d3 := d2.save_universe new_universe
            let actor_id := player_id.getD sysActorId
            let fork_event := create_fork_event parent_universe_id
              new_universe.id actor_id fork_reason fork_point_event_id
              freshEventId now
            let d4 := d3.append_event fork_event
            (Except.ok
              { success := true, universe' := some new_universe,
                fork_event := some fork_event }, ⟨d4, w.graph⟩)

/-- `travel_between_worlds(traveler_id, source_universe_id,
destination_universe_id, travel_method)`, translated step for step from
`src/services/multiverse.py`: resolve both universes, check out the source
branch, load and validate the traveler, build the deep copy with a fresh id
bound to the destination with its location cleared and timestamps refreshed,
check out the destination branch, save the copy, create the graph variant
link tagged with the travel origin, and append the TRAVEL event. -/
def travel_between_worlds (w : World)
    (traveler_id source_universe_id destination_universe_id : Nat)
    (travel_method : String) (freshCopyId freshEventId now : Nat) :
    Except String TravelResult × World :=
  match w.dolt.get_universe source_universe_id with
  | none =>
    (Except.ok
      { success := false,
        error := some ("Source universe " ++ toString source_universe_id ++
          " not found") }, w)
  | some source =>
    match w.dolt.get_universe destination_universe_id with
    | none =>
      (Except.ok
        { success := false,
          error := some ("Destination universe " ++
            toString destination_universe_id ++ " not found") }, w)
    | some destination =>
      match w.dolt.checkout_branch source.dolt_branch with
      | Except.error e => (Except.error e, w)
      | Except.ok d1 =>
        match d1.get_entity traveler_id source_universe_id with
        | none =>
          (Except.ok
            { success := false,
              error := some ("Traveler " ++ toString traveler_id ++
                " not found in source universe") }, ⟨d1, w.graph⟩)
        | some traveler =>
          if !traveler.is_character then
            (Except.ok
              { success := false,
                error := some "Only characters can travel between worlds" },
              ⟨d1, w.graph⟩)
          else
            let traveler_copy := { traveler with
              id := freshCopyId,
              universe_id := destination_universe_id,
              current_location_id := none,
              created_at := now, updated_at := now }
            match d1.checkout_branch destination.dolt_branch with
            | Except.error e => (Except.error e, ⟨d1, w.graph⟩)
            | Except.ok d2 =>
              let d3 := d2.save_entity traveler_copy
              let g1 := w.graph.create_variant_node traveler_id freshCopyId
                destination_universe_id
                [("travel_origin", toString source_universe_id)]
              let travel_event : Event :=
                { id := freshEventId,
                  universe_id := destination_universe_id,
                  event_type := EventType.travel,
                  actor_id := freshCopyId,
                  outcome := EventOutcome.success,
                  payload := { original_entity_id := some traveler_id,
                               from_universe_id := some source_universe_id,
                               to_universe_id := some destination_universe_id,
                               travel_method := some travel_method },
                  timestamp := now,
                  narrative_summary := some (traveler.name ++
                    " traveled from another world via " ++ travel_method ++ ".") }
              let d4 := d3.append_event travel_event
              (Except.ok
                { success := true,
                  traveler_copy_id := some freshCopyId,
                  destination_universe_id := some destination_universe_id,
                  travel_event := some travel_event }, ⟨d4, g1⟩)

/-- `archive_universe(universe_id)`, translated from
`src/services/multiverse.py`: returns false when the universe is missing or
is Prime Material; otherwise sets status = ARCHIVED with a refreshed update
timestamp, checks out the universe's own branch and saves the record. -/
def archive_universe (w : World) (universe_id now : Nat) :
    Except String Bool × World :=
  match w.dolt.get_universe universe_id with
  | none => (Except.ok false, w)
  | some univ =>
    if univ.is_prime_material then (Except.ok false, w)
    else
      let archived := { univ with
        status := UniverseStatus.archived, updated_at := now }
      match w.dolt.checkout_branch univ.dolt_branch with
      | Except.error e => (Except.error e, w)
      | Except.ok d1 => (Except.ok true, ⟨d1.save_universe archived, w.graph⟩)

/-- The fuel-indexed unfolding of the `while` loop of
`get_universe_lineage` (src/services/multiverse.py): follow
`parent_universe_id` pointers, stopping when the current id is null or does
not resolve; `none` means the loop has not finished within `fuel`
iterations, so the Python loop terminates exactly when some fuel returns
`some`. -/
def lineageAux (st : DoltState) : Nat → Option Nat → Option (List Universe)
  | _, none => some []
  | 0, some _ => none
  | fuel + 1, some uid =>
    match st.get_universe uid with
    | none => some []
    | some u => (lineageAux st fuel u.parent_universe_id).map (u :: ·)

/-- `get_universe_lineage(universe_id)`: the collected chain, reversed so
Prime Material comes first (`lineage.reverse()` in the source), at a given
fuel. -/
def get_universe_lineage (st : DoltState) (fuel : Nat) (universe_id : Nat) :
    Option (List Universe) :=
  (lineageAux st fuel (some universe_id)).map List.reverse

/-- The Python `get_universe_lineage` call terminates on this store state
and universe id. -/
def LineageTerminates (st : DoltState) (universe_id : Nat) : Prop :=
  ∃ fuel, (lineageAux st fuel (some universe_id)).isSome

/-- The string `pat` occurs somewhere in `s` (the error message mentions
`pat`). -/
def Mentions (s pat : String) : Prop := pat.data <:+: s.data

/-! ## Store lemmas -/

theorem mem_upsertBy {α : Type} (key : α → Nat) (x y : α) (l : List α)
    (h : y ∈ upsertBy key x l) : y = x ∨ y ∈ l := by
  induction l with
  | nil => simpa [upsertBy] using h
  | cons z zs ih =>
    by_cases hk : key z = key x
    · simp only [upsertBy, if_pos hk] at h
      rcases List.mem_cons.mp h with h | h
      · exact Or.inl h
      · exact Or.inr (List.mem_cons_of_mem _ h)
    · simp only [upsertBy, if_neg hk] at h
      rcases List.mem_cons.mp h with h | h
      · exact Or.inr (h ▸ List.mem_cons_self _ _)
      · rcases ih h with h | h
        · exact Or.inl h
        · exact Or.inr (List.mem_cons_of_mem _ h)

theorem find?_upsertBy_self {α : Type} (key : α → Nat) (x : α) (l : List α)
    (p : α → Bool) (hpx : p x = true)
    (hkey : ∀ y, p y = true → key y = key x) :
    (upsertBy key x l).find? p = some x := by
  induction l with
  | nil => simp [upsertBy, List.find?, hpx]
  | cons z zs ih =>
    by_cases hk : key z = key x
    · simp [upsertBy, if_pos hk, List.find?, hpx]
    · have hpz : p z = false := by
        cases hz : p z with
        | false => rfl
        | true => exact absurd (hkey z hz) hk
      simp [upsertBy, if_neg hk, List.find?, hpz, ih]

theorem find?_upsertBy_other {α : Type} (key : α → Nat) (x : α) (l : List α)
    (p : α → Bool) (hpx : p x = false)
    (hkey : ∀ y, p y = true → key y ≠ key x) :
    (upsertBy key x l).find? p = l.find? p := by
  induction l with
  | nil => simp [upsertBy, List.find?, hpx]
  | cons z zs ih =>
    by_cases hk : key z = key x
    · have hpz : p z = false := by
        cases hz : p z with
        | false => rfl
        | true => exact absurd hk (hkey z hz)
      simp [upsertBy, if_pos hk, List.find?, hpx, hpz]
    · cases hz : p z with
      | false => simp [upsertBy, if_neg hk, List.find?, hz, ih]
      | true => simp [upsertBy, if_neg hk, List.find?, hz]

namespace DoltState

theorem current_updateCurrent (st : DoltState) (f : Partition → Partition) :
    (st.updateCurrent f).current = st.current := rfl

theorem findBranch_updateCurrent (st : DoltState) (f : Partition → Partition)
    (b : String) :
    (st.updateCurrent f).findBranch b =
      if b = st.current then (st.findBranch b).map f else st.findBranch b := by
  obtain ⟨l, cur⟩ := st
  unfold updateCurrent findBranch
  simp only [List.find?_map]
  have hpred : ((fun bp : String × Partition => decide (bp.1 = b)) ∘
      (fun bp => if bp.1 = cur then (bp.1, f bp.2) else bp)) =
      (fun bp : String × Partition => decide (bp.1 = b)) := by
    funext bp
    by_cases h : bp.1 = cur <;> simp [h]
  rw [hpred]
  cases hf : l.find? (fun bp => decide (bp.1 = b)) with
  | none => by_cases h : b = cur <;> simp [hf, h]
  | some bp =>
    have hb : bp.1 = b := by
      have := List.find?_some hf
      simpa using this
    by_cases h : b = cur
    · subst h
      simp [hf, hb]
    · have hnc : ¬bp.1 = cur := by rw [hb]; exact h
      simp [hf, hnc, h]

theorem branch_exists_updateCurrent (st : DoltState)
    (f : Partition → Partition) (b : String) :
    (st.updateCurrent f).branch_exists b = st.branch_exists b := by
  unfold branch_exists
  rw [findBranch_updateCurrent]
  by_cases h : b = st.current <;> simp [h]

theorem currentPartition_updateCurrent (st : DoltState)
    (f : Partition → Partition) :
    (st.updateCurrent f).currentPartition =
      ((st.findBranch st.current).map f).getD Partition.empty := by
  unfold currentPartition
  rw [current_updateCurrent, findBranch_updateCurrent]
  simp

theorem checkout_branch_ok {st st' : DoltState} {b : String}
    (h : st.checkout_branch b = Except.ok st') :
    st.branch_exists b = true ∧ st' = { st with current := b } := by
  unfold checkout_branch at h
  by_cases hb : st.branch_exists b
  · refine ⟨hb, ?_⟩
    rw [if_pos hb] at h
    exact (Except.ok.injEq _ _).mp h |>.symm
  · rw [if_neg hb] at h
    exact absurd h (by simp)

theorem checkout_branch_ok_of_exists {st : DoltState} {b : String}
    (h : st.branch_exists b = true) :
    st.checkout_branch b = Except.ok { st with current := b } := by
  unfold checkout_branch
  rw [if_pos h]

theorem create_branch_ok {st st' : DoltState} {name from_branch : String}
    (h : st.create_branch name from_branch = Except.ok st') :
    ∃ p, st.findBranch from_branch = some p ∧
      st.branch_exists name = false ∧
      st' = { st with branches := st.branches ++ [(name, p)] } := by
  unfold create_branch at h
  split at h
  · exact absurd h (by simp)
  · rename_i p hf
    split at h
    · exact absurd h (by simp)
    · rename_i hn
      refine ⟨p, hf, by simpa using hn, ?_⟩
      exact ((Except.ok.injEq _ _).mp h).symm

theorem findBranch_append_last (l : List (String × Partition))
    (name : String) (p : Partition) (cur : String)
    (h : (DoltState.mk l cur).branch_exists name = false) :
    (DoltState.mk (l ++ [(name, p)]) cur).findBranch name = some p := by
  have h0 : l.find? (fun bp => decide (bp.1 = name)) = none := by
    unfold branch_exists findBranch at h
    cases hf : l.find? (fun bp => decide (bp.1 = name)) with
    | none => rfl
    | some q => rw [hf] at h; simp at h
  unfold findBranch
  rw [List.find?_append, h0]
  simp

theorem findBranch_append_other (l : List (String × Partition))
    (name b : String) (p : Partition) (cur : String) (hb : b ≠ name) :
    (DoltState.mk (l ++ [(name, p)]) cur).findBranch b =
      (DoltState.mk l cur).findBranch b := by
  unfold findBranch
  rw [List.find?_append]
  cases hf : l.find? (fun bp => bp.1 = b) with
  | none => simp [List.find?, Ne.symm hb]
  | some q => simp

end DoltState

/-! ## C1 — `get_entity_in_universe` resolution precedence -/

/-- The graph state of the claim's own scenario: entity `King` (a character,
node id 1) registered only in Prime, and a variant of it (node id 2) in
universe 5. -/
def kingGraph : GraphState :=
  { nodes := [⟨1, some "King", some "character", some GUniv.prime, false, none⟩,
              ⟨2, none, none, some (GUniv.uid 5), true, none⟩],
    variantEdges := [⟨2, 1, []⟩] }

/-- C1: with no type filter the three-step precedence resolves `King` in
universe 5 to the variant's id (2), as the claim states; but with the type
filter `character` supplied, the very same lookup does not return the
variant — the variant-step query interpolates the filter
`AND e.type = $entity_type` into a `MATCH` that binds only `variant` and
`original`, so the call raises an undefined-variable error instead.  This
refutes the claim's final sentence ("this holds also when a type filter T is
supplied at each of the three steps"); the spec's step 2 ("whose original
has the matching name/type") is clearly the intent and the reused `e.`-based
filter a slip, so the code is the bug. -/
theorem get_entity_in_universe_type_filter_bug :
    kingGraph.get_entity_in_universe "King" 5 none = Except.ok (some 2) ∧
    kingGraph.get_entity_in_universe "King" 5 (some "character") =
      Except.error "Variable e not defined" := by
  constructor <;> rfl

/-! ## C4 — branch snapshot and isolation -/

/-- C4: on success, `create_branch(name, from_branch)` seeds the new branch's
partition as a full snapshot copy of `from_branch`'s partition at that
instant, leaves every other branch and the active branch untouched, and
thereafter the partitions evolve independently: every write (entity save,
universe save, event append) targets only the active branch's partition, so
a write performed with one branch active never changes what a read on a
different branch returns. -/
theorem create_branch_snapshot_and_isolation
    (st st' : DoltState) (name from_branch : String)
    (h : st.create_branch name from_branch = Except.ok st') :
    st'.findBranch name = st.findBranch from_branch ∧
    (∀ b, b ≠ name → st'.findBranch b = st.findBranch b) ∧
    st'.current = st.current ∧
    (∀ (s : DoltState) (b : String) (e : Entity) (u : Universe) (ev : Event),
      b ≠ s.current →
      (s.save_entity e).findBranch b = s.findBranch b ∧
      (s.save_universe u).findBranch b = s.findBranch b ∧
      (s.append_event ev).findBranch b = s.findBranch b) := by
  obtain ⟨p, hfrom, hnew, hst'⟩ := DoltState.create_branch_ok h
  subst hst'
  refine ⟨?_, ?_, rfl, ?_⟩
  · obtain ⟨l, cur⟩ := st
    rw [DoltState.findBranch_append_last l name p cur hnew, hfrom]
  · intro b hb
    obtain ⟨l, cur⟩ := st
    exact DoltState.findBranch_append_other l name b p cur hb
  · intro s b e u ev hb
    unfold DoltState.save_entity DoltState.save_universe DoltState.append_event
    refine ⟨?_, ?_, ?_⟩ <;>
      · rw [DoltState.findBranch_updateCurrent, if_neg hb]

/-- A small concrete store for the witnesses: branch `main` holding one
character entity, one universe record and no events. -/
def entHero : Entity := ⟨10, 1, "Hero", EntityType.character, some 99, 0, 0, "hp=10"⟩

/-- A second entity, saved after the fork in the witnesses. -/
def entVillain : Entity := ⟨11, 1, "Villain", EntityType.character, none, 0, 0, "hp=7"⟩

/-- The Prime Material universe record used by the concrete stores. -/
def primeU : Universe :=
  ⟨1, "Prime Material", "main", none, 0, UniverseStatus.active, none, none, none, 0, 0⟩

/-- The `main` partition of the concrete store. -/
def pMain : Partition := ⟨[primeU], [entHero], []⟩

/-- The concrete store before the fork. -/
def stMain : DoltState := ⟨[("main", pMain)], "main"⟩

/-- The concrete store after `create_branch "fork/test" "main"`. -/
def stFork : DoltState := ⟨[("main", pMain), ("fork/test", pMain)], "main"⟩

/-- The concrete store after also checking out `fork/test`. -/
def stFork2 : DoltState := ⟨[("main", pMain), ("fork/test", pMain)], "fork/test"⟩

/-- C4 witness: the snapshot/isolation theorem applied at the concrete
store — forking `main` into `fork/test` copies the partition, and an entity
save performed while `fork/test` is active leaves `main`'s partition
unchanged. -/
theorem create_branch_snapshot_and_isolation_witness :
    stFork.findBranch "fork/test" = stMain.findBranch "main" ∧
    stFork.findBranch "main" = stMain.findBranch "main" ∧
    (stFork2.save_entity entVillain).findBranch "main" = stFork2.findBranch "main" := by
  have h := create_branch_snapshot_and_isolation stMain stFork "fork/test" "main" rfl
  exact ⟨h.1, h.2.1 "main" (by decide),
    (h.2.2.2 stFork2 "main" entVillain primeU
      ⟨0, 1, EventType.dialogue, 10, EventOutcome.success, {}, 0, none⟩
      (by decide)).1⟩

/-! ## C2 — fork success postconditions -/

namespace DoltState

theorem findBranch_mem {st : DoltState} {b : String} {p : Partition}
    (h : st.findBranch b = some p) : (b, p) ∈ st.branches := by
  unfold findBranch at h
  cases hf : st.branches.find? (fun bp => decide (bp.1 = b)) with
  | none => rw [hf] at h; simp at h
  | some bp =>
    rw [hf] at h
    have hmem := List.mem_of_find?_eq_some hf
    have hb : bp.1 = b := by simpa using List.find?_some hf
    have hp : bp.2 = p := by simpa using h
    rw [← hb, ← hp]
    exact hmem

theorem get_events_save_append (st : DoltState) (p : Partition) (u : Universe)
    (ev : Event) (hcur : st.findBranch st.current = some p)
    (hnone : ∀ e ∈ p.events, e.universe_id ≠ ev.universe_id) :
    ((st.save_universe u).append_event ev).get_events ev.universe_id = [ev] := by
  have h1 : ((st.save_universe u).append_event ev).currentPartition =
      { p with universes := upsertBy (·.id) u p.universes,
               events := p.events ++ [ev] } := by
    unfold save_universe append_event
    rw [currentPartition_updateCurrent, current_updateCurrent,
        findBranch_updateCurrent]
    simp [hcur]
  unfold get_events
  rw [h1]
  show sortByTime ((p.events ++ [ev]).filter _) = [ev]
  rw [List.filter_append]
  have h3 : p.events.filter (fun e => decide (e.universe_id = ev.universe_id)) = [] := by
    rw [List.filter_eq_nil_iff]
    intro e he
    simpa using hnone e he
  rw [h3]
  simp [sortByTime, insertByTime]

end DoltState

/-- C2: a successful `fork_universe` on parent `P` returns a child `C` with
`C.parent_universe_id = P.id` and `C.depth = P.depth + 1`, and on the
child's branch (the active branch after the call) the events of `C` are
exactly the one appended FORK event, whose payload carries the fork reason
and whose actor is the owner id if given, else the synthesized system actor
id.  The freshness hypothesis says the fresh child id was not already used
as the universe id of any stored event, which `uuid4` guarantees. -/
theorem fork_universe_success_spec
    (w w' : World) (parent_universe_id : Nat)
    (new_universe_name fork_reason : String)
    (player_id fork_point_event_id : Option Nat)
    (freshUniverseId sysActorId freshEventId now : Nat) (r : ForkResult)
    (hrun : fork_universe w parent_universe_id new_universe_name fork_reason
      player_id fork_point_event_id freshUniverseId sysActorId freshEventId
      now = (Except.ok r, w'))
    (hs : r.success = true)
    (hfresh : ∀ bp ∈ w.dolt.branches, ∀ ev ∈ bp.2.events,
      ev.universe_id ≠ freshUniverseId) :
    ∃ parent child fev,
      w.dolt.get_universe parent_universe_id = some parent ∧
      r.universe' = some child ∧
      r.fork_event = some fev ∧
      child.parent_universe_id = some parent.id ∧
      child.depth = parent.depth + 1 ∧
      child.id = freshUniverseId ∧
      w'.dolt.get_events child.id = [fev] ∧
      fev.event_type = EventType.fork ∧
      fev.payload.fork_reason = some fork_reason ∧
      fev.actor_id = player_id.getD sysActorId := by
  unfold fork_universe at hrun
  split at hrun
  · injection hrun with h1 h2
    injection h1 with h1
    rw [← h1] at hs
    simp at hs
  · rename_i parent hpid
    split at hrun
    · injection hrun with h1 h2
      injection h1 with h1
      rw [← h1] at hs
      simp at hs
    · split at hrun
      · injection hrun with h1 h2
        injection h1 with h1
        rw [← h1] at hs
        simp at hs
      · rename_i hbex
        dsimp only at hrun
        split at hrun
        · injection hrun with h1 h2
          injection h1 with h1
          rw [← h1] at hs
          simp at hs
        · rename_i d1 hcb
          split at hrun
          · injection hrun with h1 h2
            exact absurd h1 (by simp)
          · rename_i d2 hco
            injection hrun with h1 h2
            subst h2
            injection h1 with h1
            subst h1
            obtain ⟨p, hfrom, hnew, hd1⟩ := DoltState.create_branch_ok hcb
            obtain ⟨hbex2, hd2⟩ := DoltState.checkout_branch_ok hco
            refine ⟨parent,
              create_fork parent new_universe_name player_id fork_reason
                fork_point_event_id freshUniverseId now,
              create_fork_event parent_universe_id freshUniverseId
                (player_id.getD sysActorId) fork_reason fork_point_event_id
                freshEventId now,
              hpid, rfl, rfl, rfl, rfl, rfl, ?_, rfl, rfl, rfl⟩
            -- the events of the child universe on the child branch
            have hp1 : d2.findBranch d2.current = some p := by
              rw [hd2, hd1]
              exact DoltState.findBranch_append_last w.dolt.branches _ p
                w.dolt.current hnew
            have hev : ∀ e ∈ p.events, e.universe_id ≠ freshUniverseId :=
              fun e he => hfresh _ (DoltState.findBranch_mem hfrom) e he
            exact DoltState.get_events_save_append d2 p _ _ hp1 hev

/-! ## C3 — fork failure is total: readable error, no partial state -/

theorem mentions_right (a b pat : String) (h : Mentions b pat) :
    Mentions (a ++ b) pat := by
  unfold Mentions at h ⊢
  rw [String.data_append]
  exact h.trans (List.suffix_append a.data b.data).isInfix

theorem mentions_left (a b pat : String) (h : Mentions a pat) :
    Mentions (a ++ b) pat := by
  unfold Mentions at h ⊢
  rw [String.data_append]
  exact h.trans (List.prefix_append a.data b.data).isInfix

/-- C3: whenever `fork_universe` returns a failure result, both stores are
exactly as before the call (no branch, no universe record, no event — not
even the active branch changed), the result carries an error message, that
message mentions "not found" when the parent id does not resolve, and it
mentions "inactive" when the parent resolved but its status is not
ACTIVE. -/
theorem fork_universe_failure_spec
    (w w' : World) (parent_universe_id : Nat)
    (new_universe_name fork_reason : String)
    (player_id fork_point_event_id : Option Nat)
    (freshUniverseId sysActorId freshEventId now : Nat) (r : ForkResult)
    (hrun : fork_universe w parent_universe_id new_universe_name fork_reason
      player_id fork_point_event_id freshUniverseId sysActorId freshEventId
      now = (Except.ok r, w'))
    (hfail : r.success = false) :
    w' = w ∧
    ∃ msg, r.error = some msg ∧
      (w.dolt.get_universe parent_universe_id = none →
        Mentions msg "not found") ∧
      (∀ parent, w.dolt.get_universe parent_universe_id = some parent →
        parent.is_active = false → Mentions msg "inactive") := by
  unfold fork_universe at hrun
  split at hrun
  · -- parent not found
    rename_i hpid
    injection hrun with h1 h2
    injection h1 with h1
    subst h1; subst h2
    refine ⟨rfl, _, rfl, fun _ => ?_, fun parent hp => ?_⟩
    · exact mentions_right _ _ _ ⟨[' '], [], rfl⟩
    · rw [hpid] at hp; exact absurd hp (by simp)
  · rename_i parent hpid
    split at hrun
    · -- parent inactive
      rename_i hact
      injection hrun with h1 h2
      injection h1 with h1
      subst h1; subst h2
      refine ⟨rfl, _, rfl, fun hnone => ?_, fun parent' hp hact' => ?_⟩
      · rw [hpid] at hnone; exact absurd hnone (by simp)
      · exact mentions_left _ _ _ (mentions_left _ _ _
          ⟨"Cannot fork from ".data, " universe (status: ".data, by decide⟩)
    · rename_i hact
      have hactive : parent.is_active = true := by
        cases h : parent.is_active with
        | true => rfl
        | false => rw [h] at hact; simp at hact
      split at hrun
      · -- parent branch missing
        injection hrun with h1 h2
        injection h1 with h1
        subst h1; subst h2
        refine ⟨rfl, _, rfl, fun hnone => ?_, fun parent' hp hact' => ?_⟩
        · rw [hpid] at hnone; exact absurd hnone (by simp)
        · rw [hpid] at hp
          injection hp with hp
          subst hp
          rw [hactive] at hact'
          exact absurd hact' (by simp)
      · dsimp only at hrun
        split at hrun
        · -- branch-name collision (ValueError caught)
          rename_i e hcb
          injection hrun with h1 h2
          injection h1 with h1
          subst h1; subst h2
          refine ⟨rfl, _, rfl, fun hnone => ?_, fun parent' hp hact' => ?_⟩
          · rw [hpid] at hnone; exact absurd hnone (by simp)
          · rw [hpid] at hp
            injection hp with hp
            subst hp
            rw [hactive] at hact'
            exact absurd hact' (by simp)
        · rename_i d1 hcb
          split at hrun
          · -- checkout cannot fail here, and even so the result is not ok
            injection hrun with h1 h2
            exact absurd h1 (by simp)
          · -- success result contradicts hfail
            injection hrun with h1 h2
            injection h1 with h1
            rw [← h1] at hfail
            simp at hfail

/-- The combined concrete world used by the witnesses: the concrete store
with an empty graph. -/
def wMain : World := ⟨stMain, GraphState.empty⟩

/-- The child universe produced by the witness fork. -/
def childC : Universe := create_fork primeU "Fork A" none "testing" none 50 5

/-- The FORK event produced by the witness fork. -/
def fevC : Event := create_fork_event 1 50 60 "testing" none 70 5

/-- The fork result of the witness fork. -/
def forkR : ForkResult :=
  { success := true, universe' := some childC, fork_event := some fevC }

/-- The world after the witness fork: the child branch `anon/fork-50` holds
the snapshot of `main` plus the child record and the FORK event, and is the
active branch. -/
def forkW : World :=
  ⟨⟨[("main", pMain),
     ("anon/fork-50", ⟨[primeU, childC], [entHero], [fevC]⟩)],
    "anon/fork-50"⟩, GraphState.empty⟩

/-- C2 witness: the fork-success theorem applied to the concrete world —
forking Prime Material (id 1) with reason "testing" yields child id 50 at
depth 1 whose branch carries exactly the FORK event with
`payload.fork_reason = "testing"` and the synthesized actor 60. -/
theorem fork_universe_success_spec_witness :
    ∃ parent child fev,
      wMain.dolt.get_universe 1 = some parent ∧
      forkR.universe' = some child ∧
      forkR.fork_event = some fev ∧
      child.parent_universe_id = some parent.id ∧
      child.depth = parent.depth + 1 ∧
      child.id = 50 ∧
      forkW.dolt.get_events child.id = [fev] ∧
      fev.event_type = EventType.fork ∧
      fev.payload.fork_reason = some "testing" ∧
      fev.actor_id = (none : Option Nat).getD 60 :=
  fork_universe_success_spec wMain forkW 1 "Fork A" "testing" none none
    50 60 70 5 forkR rfl rfl (by decide)

/-- C3 witness: forking from the nonexistent parent id 42 in the concrete
world fails, changes nothing, and the message mentions "not found". -/
theorem fork_universe_failure_spec_witness :
    wMain = wMain ∧
    ∃ msg,
      (some ("Parent universe " ++ toString (42 : Nat) ++ " not found") :
        Option String) = some msg ∧
      (wMain.dolt.get_universe 42 = none → Mentions msg "not found") ∧
      (∀ parent, wMain.dolt.get_universe 42 = some parent →
        parent.is_active = false → Mentions msg "inactive") := by
  exact fork_universe_failure_spec wMain wMain 42 "X" "reason" none none
    7 8 9 0 { success := false,
              error := some ("Parent universe " ++ toString (42 : Nat) ++
                " not found") } rfl rfl

/-! ## C6 — travel failure creates nothing -/

/-- C6: when both universes resolve and the source branch exists but the
traveler is absent from the source universe or is not a character, travel
returns a failure result carrying an error (a "not found" message for an
absent traveler, the only-characters message for a non-character) and
creates nothing: every branch partition of the entity/event store and the
whole graph store are unchanged (no copy, no variant link, no TRAVEL
event). -/
theorem travel_between_worlds_failure_spec
    (w : World) (traveler_id source_universe_id destination_universe_id : Nat)
    (travel_method : String) (freshCopyId freshEventId now : Nat)
    (source destination : Universe)
    (hsrc : w.dolt.get_universe source_universe_id = some source)
    (hdst : w.dolt.get_universe destination_universe_id = some destination)
    (hbexS : w.dolt.branch_exists source.dolt_branch = true)
    (hcase :
      ({ w.dolt with current := source.dolt_branch } : DoltState).get_entity
        traveler_id source_universe_id = none ∨
      ∃ t, ({ w.dolt with current := source.dolt_branch } : DoltState).get_entity
        traveler_id source_universe_id = some t ∧ t.is_character = false) :
    ∃ r w', travel_between_worlds w traveler_id source_universe_id
        destination_universe_id travel_method freshCopyId freshEventId now =
        (Except.ok r, w') ∧
      r.success = false ∧
      r.traveler_copy_id = none ∧
      r.travel_event = none ∧
      w'.dolt.branches = w.dolt.branches ∧
      w'.graph = w.graph ∧
      ∃ msg, r.error = some msg ∧
        (({ w.dolt with current := source.dolt_branch } : DoltState).get_entity
            traveler_id source_universe_id = none →
          Mentions msg "not found") ∧
        (∀ t, ({ w.dolt with current := source.dolt_branch } : DoltState).get_entity
            traveler_id source_universe_id = some t → t.is_character = false →
          msg = "Only characters can travel between worlds") := by
  have hco1 := DoltState.checkout_branch_ok_of_exists hbexS
  unfold travel_between_worlds
  rw [hsrc]
  dsimp only
  rw [hdst]
  dsimp only
  rw [hco1]
  dsimp only
  rcases hcase with hget | ⟨t, hget, htype⟩
  · rw [hget]
    refine ⟨_, _, rfl, rfl, rfl, rfl, rfl, rfl, _, rfl, fun _ => ?_, fun t ht => ?_⟩
    · exact mentions_right _ _ _ ⟨[' '], " in source universe".data, by decide⟩
    · exact fun _ => absurd ht (by simp)
  · rw [hget]
    dsimp only
    rw [htype]
    refine ⟨_, _, rfl, rfl, rfl, rfl, rfl, rfl, _, rfl, fun hnone => ?_, fun t' ht' _ => rfl⟩
    exact absurd hnone (by simp)

/-- The concrete store for the traveler-failure witnesses: `main` holds the
Prime record and a forked-world record whose branch `w1` exists but holds
nothing. -/
def srcU : Universe :=
  ⟨2, "World 1", "w1", some 1, 1, UniverseStatus.active, none, some "r", none, 0, 0⟩

/-- Store with records of Prime (id 1, branch `main`) and World 1 (id 2,
branch `w1`) on `main`, `main` active. -/
def stTwo : DoltState :=
  ⟨[("main", ⟨[primeU, srcU], [], []⟩), ("w1", Partition.empty)], "main"⟩

/-- The two-branch world used by the C6/C10 witnesses. -/
def wTwo : World := ⟨stTwo, GraphState.empty⟩

/-- C6 witness: travelling the absent entity 99 from World 1 (id 2) to Prime
(id 1) in the concrete two-branch world fails and leaves every partition and
the graph unchanged. -/
theorem travel_between_worlds_failure_spec_witness :
    ∃ r w', travel_between_worlds wTwo 99 2 1 "portal" 77 78 9 =
        (Except.ok r, w') ∧
      r.success = false ∧
      r.traveler_copy_id = none ∧
      r.travel_event = none ∧
      w'.dolt.branches = wTwo.dolt.branches ∧
      w'.graph = wTwo.graph ∧
      ∃ msg, r.error = some msg ∧
        (({ wTwo.dolt with current := srcU.dolt_branch } : DoltState).get_entity
            99 2 = none → Mentions msg "not found") ∧
        (∀ t, ({ wTwo.dolt with current := srcU.dolt_branch } : DoltState).get_entity
            99 2 = some t → t.is_character = false →
          msg = "Only characters can travel between worlds") :=
  travel_between_worlds_failure_spec wTwo 99 2 1 "portal" 77 78 9 srcU primeU
    rfl rfl rfl (Or.inl rfl)

/-! ## C5 — travel success postconditions -/

namespace DoltState

theorem branch_exists_save_entity_append (st : DoltState) (e : Entity)
    (ev : Event) (b : String) :
    ((st.save_entity e).append_event ev).branch_exists b = st.branch_exists b := by
  unfold save_entity append_event
  rw [branch_exists_updateCurrent, branch_exists_updateCurrent]

theorem findBranch_save_entity_append (st : DoltState) (e : Entity)
    (ev : Event) (b : String) :
    ((st.save_entity e).append_event ev).findBranch b =
      if b = st.current then
        (st.findBranch b).map (fun p =>
          { p with entities := upsertBy (·.id) e p.entities,
                   events := p.events ++ [ev] })
      else st.findBranch b := by
  unfold save_entity append_event
  rw [findBranch_updateCurrent, current_updateCurrent, findBranch_updateCurrent]
  by_cases h : b = st.current
  · simp only [if_pos h, Option.map_map]
    rfl
  · simp only [if_neg h]

theorem get_entity_save_append (st : DoltState) (p : Partition) (e : Entity)
    (ev : Event) (hcur : st.findBranch st.current = some p) :
    ((st.save_entity e).append_event ev).get_entity e.id e.universe_id = some e := by
  have h1 : ((st.save_entity e).append_event ev).currentPartition =
      { p with entities := upsertBy (·.id) e p.entities,
               events := p.events ++ [ev] } := by
    unfold save_entity append_event
    rw [currentPartition_updateCurrent, current_updateCurrent,
        findBranch_updateCurrent]
    simp [hcur]
  unfold get_entity
  rw [h1]
  show ((upsertBy (·.id) e p.entities).find? _) = some e
  apply find?_upsertBy_self
  · simp
  · intro y hy
    simp at hy
    exact hy.1

end DoltState

namespace GraphState

theorem variantEdges_mergeNode (g : GraphState) (i : Nat) :
    (g.mergeNode i).variantEdges = g.variantEdges := by
  unfold mergeNode
  split <;> rfl

theorem nodes_mergeNode_fresh (g : GraphState) (o v : Nat)
    (hfresh : ∀ n ∈ g.nodes, n.id ≠ v) (hov : o ≠ v) :
    ∀ n ∈ (g.mergeNode o).nodes, n.id ≠ v := by
  intro n hn
  unfold mergeNode at hn
  by_cases hmem : (g.findNode o).isSome
  · rw [if_pos hmem] at hn
    exact hfresh n hn
  · rw [if_neg hmem] at hn
    rcases List.mem_append.mp hn with h | h
    · exact hfresh n h
    · simp at h
      rw [h]
      exact hov

theorem has_variant_create_variant_node (g : GraphState) (o v u : Nat)
    (ch : List (String × String))
    (hfresh : ∀ n ∈ g.nodes, n.id ≠ v) (hov : o ≠ v) :
    (g.create_variant_node o v u ch).has_variant o u = true := by
  have hnodes := nodes_mergeNode_fresh g o v hfresh hov
  unfold create_variant_node has_variant
  apply List.any_eq_true.mpr
  refine ⟨⟨v, o, ch⟩, List.mem_append_right _ (List.mem_singleton.mpr rfl), ?_⟩
  have hfind : (GraphState.mk
      ((g.mergeNode o).nodes ++ [⟨v, none, none, some (GUniv.uid u), true, none⟩])
      ((g.mergeNode o).variantEdges ++ [⟨v, o, ch⟩])).findNode v =
      some ⟨v, none, none, some (GUniv.uid u), true, none⟩ := by
    unfold findNode
    rw [List.find?_append]
    have hleft : (g.mergeNode o).nodes.find? (fun n => decide (n.id = v)) = none := by
      rw [List.find?_eq_none]
      intro x hx
      simpa using hnodes x hx
    rw [hleft]
    simp [List.find?]
  simp [hfind]

end GraphState

theorem DoltState.get_entity_eq_find (st : DoltState) (p : Partition)
    (tid uid : Nat) (hp : st.findBranch st.current = some p) :
    st.get_entity tid uid = p.entities.find?
      (fun en => decide (en.id = tid) && decide (en.universe_id = uid)) := by
  unfold get_entity currentPartition
  rw [hp]
  rfl

/-- C5: a successful `travel_between_worlds` returns a copy id different
from the original id; the copy — a deep copy of the traveler bound to the
destination universe with its location cleared and timestamps refreshed —
is saved in the destination branch (the active branch after the call);
the original entity is untouched and still retrievable unchanged in the
source universe after checking the source branch out again; and the graph
store holds a `VARIANT_OF` link from the copy to the original tagged with
the travel origin, so `has_variant(traveler, destination)` is true.
Freshness of the copy id (distinct from the traveler id and from every
graph node id) models `uuid4`. -/
theorem travel_between_worlds_success_spec
    (w : World) (traveler_id source_universe_id destination_universe_id : Nat)
    (travel_method : String) (freshCopyId freshEventId now : Nat)
    (source destination : Universe) (traveler : Entity)
    (hsrc : w.dolt.get_universe source_universe_id = some source)
    (hdst : w.dolt.get_universe destination_universe_id = some destination)
    (hbexS : w.dolt.branch_exists source.dolt_branch = true)
    (hget : ({ w.dolt with current := source.dolt_branch } : DoltState).get_entity
      traveler_id source_universe_id = some traveler)
    (hchar : traveler.is_character = true)
    (hbexD : w.dolt.branch_exists destination.dolt_branch = true)
    (hne : freshCopyId ≠ traveler_id)
    (hgfresh : ∀ n ∈ w.graph.nodes, n.id ≠ freshCopyId) :
    ∃ r w', travel_between_worlds w traveler_id source_universe_id
        destination_universe_id travel_method freshCopyId freshEventId now =
        (Except.ok r, w') ∧
      r.success = true ∧
      r.traveler_copy_id = some freshCopyId ∧
      freshCopyId ≠ traveler_id ∧
      w'.dolt.current = destination.dolt_branch ∧
      w'.dolt.get_entity freshCopyId destination_universe_id =
        some { traveler with id := freshCopyId,
                             universe_id := destination_universe_id,
                             current_location_id := none,
                             created_at := now, updated_at := now } ∧
      (∃ d2, w'.dolt.checkout_branch source.dolt_branch = Except.ok d2 ∧
        d2.get_entity traveler_id source_universe_id = some traveler) ∧
      w'.graph.has_variant traveler_id destination_universe_id = true ∧
      (⟨freshCopyId, traveler_id,
        [("travel_origin", toString source_universe_id)]⟩ : VariantEdge) ∈
        w'.graph.variantEdges := by
  have hco1 := DoltState.checkout_branch_ok_of_exists hbexS
  have hbexD1 : ({ w.dolt with current := source.dolt_branch } :
      DoltState).branch_exists destination.dolt_branch = true := hbexD
  have hco2 := DoltState.checkout_branch_ok_of_exists hbexD1
  unfold travel_between_worlds
  rw [hsrc]
  dsimp only
  rw [hdst]
  dsimp only
  rw [hco1]
  dsimp only
  rw [hget]
  dsimp only
  rw [if_neg (show ¬((!traveler.is_character) = true) by rw [hchar]; decide)]
  rw [hco2]
  dsimp only
  refine ⟨_, _, rfl, rfl, rfl, hne, rfl, ?_, ?_, ?_, ?_⟩
  · -- the copy is retrievable in the destination universe
    obtain ⟨q, hq⟩ := Option.isSome_iff_exists.mp
      (show (w.dolt.findBranch destination.dolt_branch).isSome = true from hbexD)
    exact DoltState.get_entity_save_append _ q _ _ hq
  · -- the original is retrievable unchanged in the source universe
    obtain ⟨ps, hps⟩ := Option.isSome_iff_exists.mp
      (show (w.dolt.findBranch source.dolt_branch).isSome = true from hbexS)
    have hbex4 : ∀ (e : Entity) (ev : Event),
        ((({ w.dolt with current := destination.dolt_branch } :
          DoltState).save_entity e).append_event ev).branch_exists
          source.dolt_branch = true := by
      intro e ev
      rw [DoltState.branch_exists_save_entity_append]
      exact hbexS
    have hget' : ps.entities.find?
        (fun en => decide (en.id = traveler_id) &&
          decide (en.universe_id = source_universe_id)) = some traveler := by
      rw [← DoltState.get_entity_eq_find
        ({ w.dolt with current := source.dolt_branch } : DoltState) ps
        traveler_id source_universe_id hps]
      exact hget
    have key : ∀ (e : Entity) (ev : Event), e.id = freshCopyId →
        ({ (({ w.dolt with current := destination.dolt_branch } :
            DoltState).save_entity e).append_event ev
          with current := source.dolt_branch } : DoltState).get_entity
          traveler_id source_universe_id = some traveler := by
      intro e ev he
      by_cases hsd : source.dolt_branch = destination.dolt_branch
      · -- source and destination share a branch: the copy was saved there,
        -- but under a different id, so the original's record is untouched
        have hfb : ((({ w.dolt with current := destination.dolt_branch } :
            DoltState).save_entity e).append_event ev).findBranch
            source.dolt_branch =
            some { ps with entities := upsertBy (·.id) e ps.entities,
                           events := ps.events ++ [ev] } := by
          rw [DoltState.findBranch_save_entity_append,
            if_pos (show source.dolt_branch =
              ({ w.dolt with current := destination.dolt_branch } :
                DoltState).current from hsd)]
          rw [show ({ w.dolt with current := destination.dolt_branch } :
            DoltState).findBranch source.dolt_branch = some ps from hps]
          rfl
        rw [DoltState.get_entity_eq_find _ _ _ _
          (show ({ (({ w.dolt with current := destination.dolt_branch } :
              DoltState).save_entity e).append_event ev
            with current := source.dolt_branch } : DoltState).findBranch
            source.dolt_branch = _ from hfb)]
        show ((upsertBy (·.id) e ps.entities).find? _) = some traveler
        rw [find?_upsertBy_other]
        · exact hget'
        · simp [he, hne]
        · intro y hy
          simp at hy
          intro hcontra
          rw [hy.1, he] at hcontra
          exact hne hcontra.symm
      · -- distinct branches: the source partition is exactly as before
        have hfb : ((({ w.dolt with current := destination.dolt_branch } :
            DoltState).save_entity e).append_event ev).findBranch
            source.dolt_branch = some ps := by
          rw [DoltState.findBranch_save_entity_append,
            if_neg (show ¬source.dolt_branch =
              ({ w.dolt with current := destination.dolt_branch } :
                DoltState).current from hsd)]
          exact hps
        rw [DoltState.get_entity_eq_find _ _ _ _
          (show ({ (({ w.dolt with current := destination.dolt_branch } :
              DoltState).save_entity e).append_event ev
            with current := source.dolt_branch } : DoltState).findBranch
            source.dolt_branch = _ from hfb)]
        exact hget'
    exact ⟨_, DoltState.checkout_branch_ok_of_exists (hbex4 _ _), key _ _ rfl⟩
  · -- the variant link exists in the destination universe
    exact GraphState.has_variant_create_variant_node w.graph traveler_id
      freshCopyId destination_universe_id _ hgfresh (fun h => hne h.symm)
  · -- and it is tagged with the travel origin
    unfold GraphState.create_variant_node
    dsimp only
    simp

/-- The concrete travel world: `main` holds both universe records and the
hero (a character in universe 1); branch `w1` (World 1's branch) exists and
is empty. -/
def wTrav : World :=
  ⟨⟨[("main", ⟨[primeU, srcU], [entHero], []⟩), ("w1", Partition.empty)],
    "main"⟩, GraphState.empty⟩

/-- C5 witness: travelling the hero (id 10) from Prime (id 1, branch `main`)
to World 1 (id 2, branch `w1`) with fresh copy id 77 — the theorem applied at
the concrete world. -/
theorem travel_between_worlds_success_spec_witness :
    ∃ r w', travel_between_worlds wTrav 10 1 2 "portal" 77 78 9 =
        (Except.ok r, w') ∧
      r.success = true ∧
      r.traveler_copy_id = some 77 ∧
      (77 : Nat) ≠ 10 ∧
      w'.dolt.current = srcU.dolt_branch ∧
      w'.dolt.get_entity 77 2 =
        some { entHero with id := 77, universe_id := 2,
                            current_location_id := none,
                            created_at := 9, updated_at := 9 } ∧
      (∃ d2, w'.dolt.checkout_branch primeU.dolt_branch = Except.ok d2 ∧
        d2.get_entity 10 1 = some entHero) ∧
      w'.graph.has_variant 10 2 = true ∧
      (⟨77, 10, [("travel_origin", toString (1 : Nat))]⟩ : VariantEdge) ∈
        w'.graph.variantEdges :=
  travel_between_worlds_success_spec wTrav 10 1 2 "portal" 77 78 9
    primeU srcU entHero rfl rfl rfl rfl rfl rfl (by decide) (by decide)

/-! ## C10 — failed travel still moves the active branch -/

/-- C10: `travel_between_worlds` checks out the source universe's branch
before validating the traveler, so a call that fails because the traveler is
absent (or not a character) still leaves the store's global active branch
set to the source branch — the failure is not side-effect-free on the
checkout state even though nothing is written. -/
theorem travel_failure_checkout_side_effect
    (w : World) (traveler_id source_universe_id destination_universe_id : Nat)
    (travel_method : String) (freshCopyId freshEventId now : Nat)
    (source destination : Universe)
    (hsrc : w.dolt.get_universe source_universe_id = some source)
    (hdst : w.dolt.get_universe destination_universe_id = some destination)
    (hbexS : w.dolt.branch_exists source.dolt_branch = true)
    (hcase :
      ({ w.dolt with current := source.dolt_branch } : DoltState).get_entity
        traveler_id source_universe_id = none ∨
      ∃ t, ({ w.dolt with current := source.dolt_branch } : DoltState).get_entity
        traveler_id source_universe_id = some t ∧ t.is_character = false) :
    ∃ r w', travel_between_worlds w traveler_id source_universe_id
        destination_universe_id travel_method freshCopyId freshEventId now =
        (Except.ok r, w') ∧
      r.success = false ∧
      w'.dolt.current = source.dolt_branch := by
  have hco1 := DoltState.checkout_branch_ok_of_exists hbexS
  unfold travel_between_worlds
  rw [hsrc]
  dsimp only
  rw [hdst]
  dsimp only
  rw [hco1]
  dsimp only
  rcases hcase with hget | ⟨t, hget, htype⟩
  · rw [hget]
    exact ⟨_, _, rfl, rfl, rfl⟩
  · rw [hget]
    dsimp only
    rw [htype]
    exact ⟨_, _, rfl, rfl, rfl⟩

/-- C10 witness: in the concrete two-branch world the active branch is
`main` before the call; the failed travel (absent traveler 99) leaves the
active branch changed to the source branch `w1`. -/
theorem travel_failure_checkout_side_effect_witness :
    (∃ r w', travel_between_worlds wTwo 99 2 1 "portal" 77 78 9 =
        (Except.ok r, w') ∧
      r.success = false ∧
      w'.dolt.current = srcU.dolt_branch) ∧
    wTwo.dolt.current = "main" ∧ srcU.dolt_branch = "w1" :=
  ⟨travel_failure_checkout_side_effect wTwo 99 2 1 "portal" 77 78 9 srcU
      primeU rfl rfl rfl (Or.inl rfl), rfl, rfl⟩

/-! ## C7 — archive semantics and the Prime-never-archived invariant -/

/-- A partition respects Prime immutability: every universe record with a
null parent (i.e. Prime, spec §3) is not ARCHIVED. -/
def InvP (p : Partition) : Prop :=
  ∀ u ∈ p.universes, u.parent_universe_id = none →
    u.status ≠ UniverseStatus.archived

/-- Every branch partition of the store respects Prime immutability. -/
def DInv (st : DoltState) : Prop := ∀ bp ∈ st.branches, InvP bp.2

/-- The whole-world Prime invariant: no branch stores an archived record
with a null parent. -/
def PrimeInv (w : World) : Prop := DInv w.dolt

/-- One orchestration operation of §4.3, with its fresh ids and clock reads
made explicit. -/
inductive MOp where
  | fork (parent_universe_id : Nat) (new_universe_name fork_reason : String)
      (player_id fork_point_event_id : Option Nat)
      (freshUniverseId sysActorId freshEventId now : Nat)
  | travel (traveler_id source_universe_id destination_universe_id : Nat)
      (travel_method : String) (freshCopyId freshEventId now : Nat)
  | archive (universe_id now : Nat)
  | lineage (universe_id fuel : Nat)

/-- The state transformer of one orchestration operation (`lineage` is a
pure query and leaves the state unchanged). -/
def execOp (w : World) : MOp → World
  | MOp.fork pid n r o fp fu sa fe now => (fork_universe w pid n r o fp fu sa fe now).2
  | MOp.travel t s d m fc fe now => (travel_between_worlds w t s d m fc fe now).2
  | MOp.archive uid now => (archive_universe w uid now).2
  | MOp.lineage _ _ => w

/-- Run a sequence of orchestration operations. -/
def execOps (w : World) (ops : List MOp) : World := ops.foldl execOp w

theorem invP_upsert (p : Partition) (u : Universe)
    (hu : u.parent_universe_id = none → u.status ≠ UniverseStatus.archived)
    (h : InvP p) :
    InvP { p with universes := upsertBy (·.id) u p.universes } := by
  intro v hv
  rcases mem_upsertBy (·.id) u v p.universes hv with h1 | h1
  · rw [h1]; exact hu
  · exact h v h1

theorem dinv_updateCurrent (st : DoltState) (f : Partition → Partition)
    (hf : ∀ p, InvP p → InvP (f p)) (h : DInv st) :
    DInv (st.updateCurrent f) := by
  intro bp hbp
  unfold DoltState.updateCurrent at hbp
  simp only [List.mem_map] at hbp
  obtain ⟨bq, hbq, heq⟩ := hbp
  by_cases hc : bq.1 = st.current
  · rw [if_pos hc] at heq
    rw [← heq]
    exact hf _ (h bq hbq)
  · rw [if_neg hc] at heq
    rw [← heq]
    exact h bq hbq

theorem dinv_save_universe (st : DoltState) (u : Universe)
    (hu : u.parent_universe_id = none → u.status ≠ UniverseStatus.archived)
    (h : DInv st) : DInv (st.save_universe u) :=
  dinv_updateCurrent st _ (fun p hp => invP_upsert p u hu hp) h

theorem dinv_save_entity (st : DoltState) (e : Entity) (h : DInv st) :
    DInv (st.save_entity e) :=
  dinv_updateCurrent st _ (fun _ hp => hp) h

theorem dinv_append_event (st : DoltState) (ev : Event) (h : DInv st) :
    DInv (st.append_event ev) :=
  dinv_updateCurrent st _ (fun _ hp => hp) h

theorem dinv_create_branch {st st' : DoltState} {name from_branch : String}
    (hc : st.create_branch name from_branch = Except.ok st') (h : DInv st) :
    DInv st' := by
  obtain ⟨p, hfrom, hnew, hst'⟩ := DoltState.create_branch_ok hc
  subst hst'
  intro bp hbp
  rcases List.mem_append.mp hbp with h1 | h1
  · exact h bp h1
  · have hp' : InvP p := h _ (DoltState.findBranch_mem hfrom)
    simp at h1
    rw [h1]
    exact hp'

theorem dinv_checkout {st st' : DoltState} {b : String}
    (hc : st.checkout_branch b = Except.ok st') (h : DInv st) : DInv st' := by
  obtain ⟨_, hst'⟩ := DoltState.checkout_branch_ok hc
  subst hst'
  exact h

theorem primeInv_fork (w : World) (pid : Nat) (n r : String)
    (o fp : Option Nat) (fu sa fe now : Nat) (h : PrimeInv w) :
    PrimeInv (fork_universe w pid n r o fp fu sa fe now).2 := by
  unfold fork_universe
  split
  · exact h
  · split
    · exact h
    · split
      · exact h
      · dsimp only
        split
        · exact h
        · rename_i d1 hcb
          split
          · exact dinv_create_branch hcb h
          · rename_i d2 hco
            exact dinv_append_event _ _
              (dinv_save_universe _ _ (by simp [create_fork])
                (dinv_checkout hco (dinv_create_branch hcb h)))

theorem primeInv_travel (w : World) (t s d : Nat) (m : String)
    (fc fe now : Nat) (h : PrimeInv w) :
    PrimeInv (travel_between_worlds w t s d m fc fe now).2 := by
  unfold travel_between_worlds
  split
  · exact h
  · split
    · exact h
    · split
      · exact h
      · rename_i d1 hco1
        have hd1 : DInv d1 := dinv_checkout hco1 h
        split
        · exact hd1
        · split
          · exact hd1
          · split
            · exact hd1
            · rename_i d2 hco2
              exact dinv_append_event _ _
                (dinv_save_entity _ _ (dinv_checkout hco2 hd1))

theorem primeInv_archive (w : World) (uid now : Nat) (h : PrimeInv w) :
    PrimeInv (archive_universe w uid now).2 := by
  unfold archive_universe
  split
  · exact h
  · rename_i univ huniv
    split
    · exact h
    · rename_i hprime
      split
      · exact h
      · rename_i d1 hco
        have hpar : univ.parent_universe_id ≠ none := by
          simpa [Universe.is_prime_material] using hprime
        exact dinv_save_universe _ _ (fun hn => absurd hn hpar)
          (dinv_checkout hco h)

theorem primeInv_execOp (w : World) (op : MOp) (h : PrimeInv w) :
    PrimeInv (execOp w op) := by
  cases op with
  | fork pid n r o fp fu sa fe now => exact primeInv_fork w pid n r o fp fu sa fe now h
  | travel t s d m fc fe now => exact primeInv_travel w t s d m fc fe now h
  | archive uid now => exact primeInv_archive w uid now h
  | lineage _ _ => exact h

theorem DoltState.get_universe_eq_find (st : DoltState) (p : Partition)
    (uid : Nat) (hp : st.findBranch st.current = some p) :
    st.get_universe uid = p.universes.find? (fun u => decide (u.id = uid)) := by
  unfold get_universe currentPartition
  rw [hp]
  rfl

theorem DoltState.get_universe_save (st : DoltState) (p : Partition)
    (u : Universe) (hcur : st.findBranch st.current = some p) :
    (st.save_universe u).get_universe u.id = some u := by
  have h1 : (st.save_universe u).currentPartition =
      { p with universes := upsertBy (·.id) u p.universes } := by
    unfold save_universe
    rw [currentPartition_updateCurrent]
    simp [hcur]
  unfold get_universe
  rw [h1]
  show ((upsertBy (·.id) u p.universes).find? _) = some u
  apply find?_upsertBy_self
  · simp
  · intro y hy
    simpa using hy

/-- C7: (a) with every stored record's branch present, `archive_universe`
returns false exactly when the universe is missing or is Prime, and then
changes nothing; when the universe exists and is not Prime it returns true,
switches to the universe's own branch, and persists the record there with
status ARCHIVED and a refreshed update timestamp, leaving the graph store
alone.  (b) The Prime invariant: across any sequence of orchestration
operations, no branch ever stores an ARCHIVED record with a null parent —
in particular Prime's status is never ARCHIVED. -/
theorem archive_universe_spec_and_prime_invariant :
    (∀ (w : World) (universe_id now : Nat),
      (∀ u ∈ (w.dolt.currentPartition).universes,
        w.dolt.branch_exists u.dolt_branch = true) →
      ∃ b w', archive_universe w universe_id now = (Except.ok b, w') ∧
        (b = false ↔ (w.dolt.get_universe universe_id = none ∨
          ∃ u, w.dolt.get_universe universe_id = some u ∧
            u.is_prime_material = true)) ∧
        (b = false → w' = w) ∧
        (∀ u, w.dolt.get_universe universe_id = some u →
          u.is_prime_material = false →
          b = true ∧ w'.graph = w.graph ∧
          w'.dolt.current = u.dolt_branch ∧
          w'.dolt.get_universe universe_id =
            some { u with status := UniverseStatus.archived,
                          updated_at := now })) ∧
    (∀ (ops : List MOp) (w : World), PrimeInv w → PrimeInv (execOps w ops)) := by
  constructor
  · intro w universe_id now hwf
    cases huniv : w.dolt.get_universe universe_id with
    | none =>
      refine ⟨false, w, ?_, by simp, fun _ => rfl,
        fun u hu => absurd hu (by simp)⟩
      unfold archive_universe
      rw [huniv]
    | some u =>
      have hmem : u ∈ (w.dolt.currentPartition).universes := by
        unfold DoltState.get_universe at huniv
        exact List.mem_of_find?_eq_some huniv
      have hid : u.id = universe_id := by
        unfold DoltState.get_universe at huniv
        simpa using List.find?_some huniv
      cases hprime : u.is_prime_material with
      | true =>
        refine ⟨false, w, ?_, ?_, fun _ => rfl, fun u' hu' hp' => ?_⟩
        · unfold archive_universe
          rw [huniv]
          dsimp only
          rw [if_pos hprime]
        · exact ⟨fun _ => Or.inr ⟨u, rfl, hprime⟩, fun _ => rfl⟩
        · injection hu' with hu'
          rw [← hu'] at hp'
          rw [hprime] at hp'
          exact absurd hp' (by simp)
      | false =>
        obtain ⟨p, hp⟩ := Option.isSome_iff_exists.mp (hwf u hmem)
        have hco := DoltState.checkout_branch_ok_of_exists (hwf u hmem)
        refine ⟨true,
          ⟨({ w.dolt with current := u.dolt_branch } : DoltState).save_universe
            { u with status := UniverseStatus.archived, updated_at := now },
           w.graph⟩,
          ?_, ?_, fun hfalse => absurd hfalse (by simp),
          fun u' hu' hp' => ?_⟩
        · unfold archive_universe
          rw [huniv]
          dsimp only
          rw [if_neg (by rw [hprime]; simp)]
          rw [hco]
        · constructor
          · intro hfalse
            exact absurd hfalse (by simp)
          · intro hcase
            rcases hcase with hnone | ⟨v, hv, hvp⟩
            · exact absurd hnone (by simp)
            · injection hv with hv
              rw [← hv] at hvp
              rw [hprime] at hvp
              exact absurd hvp (by simp)
        · injection hu' with hu'
          subst hu'
          refine ⟨rfl, rfl, rfl, ?_⟩
          have hcur : ({ w.dolt with current := u.dolt_branch } :
              DoltState).findBranch ({ w.dolt with current := u.dolt_branch } :
              DoltState).current = some p := hp
          rw [← hid]
          exact DoltState.get_universe_save _ p _ hcur
  · intro ops
    induction ops with
    | nil => intro w h; exact h
    | cons op rest ih =>
      intro w h
      exact ih _ (primeInv_execOp w op h)

/-- C7 witness: archiving World 1 (id 2, not Prime) in the concrete
two-branch world succeeds, persists the ARCHIVED record on branch `w1`, and
the Prime invariant survives running an archive attempt against Prime
(id 1) itself. -/
theorem archive_universe_spec_and_prime_invariant_witness :
    (∃ b w', archive_universe wTwo 2 5 = (Except.ok b, w') ∧
      (b = false ↔ (wTwo.dolt.get_universe 2 = none ∨
        ∃ u, wTwo.dolt.get_universe 2 = some u ∧ u.is_prime_material = true)) ∧
      (b = false → w' = wTwo) ∧
      (∀ u, wTwo.dolt.get_universe 2 = some u →
        u.is_prime_material = false →
        b = true ∧ w'.graph = wTwo.graph ∧
        w'.dolt.current = u.dolt_branch ∧
        w'.dolt.get_universe 2 =
          some { u with status := UniverseStatus.archived,
                        updated_at := 5 })) ∧
    PrimeInv (execOps wTwo [MOp.archive 1 5]) :=
  ⟨archive_universe_spec_and_prime_invariant.1 wTwo 2 5 (by decide),
   archive_universe_spec_and_prime_invariant.2 [MOp.archive 1 5] wTwo
     (by unfold PrimeInv DInv InvP; decide)⟩

/-! ## C8 — lineage termination -/

/-- A cyclic pair of universe records: 1's parent is 2 and 2's parent is 1.
`save_universe` accepts any record, so such a store state is reachable at
the store interface. -/
def uniA : Universe := ⟨1, "A", "main", some 2, 1, UniverseStatus.active, none, none, none, 0, 0⟩

/-- The partner record of the cycle. -/
def uniB : Universe := ⟨2, "B", "main", some 1, 1, UniverseStatus.active, none, none, none, 0, 0⟩

/-- The store holding the cyclic pair on `main`. -/
def stCyc : DoltState := ⟨[("main", ⟨[uniA, uniB], [], []⟩)], "main"⟩

/-- C8 counterexample: on the cyclic store the `while` loop of
`get_universe_lineage` never reaches a null or unresolvable parent, so the
call does not terminate — refuting the claim's "for every store state". -/
theorem lineage_cycle_diverges : ¬ LineageTerminates stCyc 1 := by
  have key : ∀ n, lineageAux stCyc n (some 1) = none ∧
      lineageAux stCyc n (some 2) = none := by
    intro n
    induction n with
    | zero => exact ⟨rfl, rfl⟩
    | succ m ih =>
      constructor
      · rw [show lineageAux stCyc (m + 1) (some 1) =
          (lineageAux stCyc m (some 2)).map (uniA :: ·) from rfl, ih.2]
        rfl
      · rw [show lineageAux stCyc (m + 1) (some 2) =
          (lineageAux stCyc m (some 1)).map (uniB :: ·) from rfl, ih.1]
        rfl
  rintro ⟨fuel, hf⟩
  rw [(key fuel).1] at hf
  simp at hf

/-- The record's parent link decreases depth whenever it resolves (the
spec's §3 invariant "depth is always consistent with the parent chain"). -/
def parentDepthOk (st : DoltState) (u : Universe) : Bool :=
  match u.parent_universe_id with
  | none => true
  | some pid =>
    match st.get_universe pid with
    | none => true
    | some v => v.depth < u.depth

/-- The active partition's records have strictly decreasing depth along
resolvable parent links — the acyclicity condition under which the lineage
walk terminates. -/
def DepthWF (st : DoltState) : Prop :=
  ∀ u ∈ (st.currentPartition).universes, parentDepthOk st u = true

/-- The visit order of the lineage walk, following the spec's words: collect
the record of each visited id, follow its parent pointer, and stop at a null
parent or at a parent id that does not resolve. -/
inductive LineageChain (st : DoltState) : Option Nat → List Universe → Prop where
  | done : LineageChain st none []
  | missing (uid : Nat) : st.get_universe uid = none →
      LineageChain st (some uid) []
  | step (uid : Nat) (u : Universe) (l : List Universe) :
      st.get_universe uid = some u →
      LineageChain st u.parent_universe_id l →
      LineageChain st (some uid) (u :: l)

theorem lineageAux_mono (st : DoltState) :
    ∀ (fuel : Nat) (oid : Option Nat) (l : List Universe),
      lineageAux st fuel oid = some l →
      lineageAux st (fuel + 1) oid = some l := by
  intro fuel
  induction fuel with
  | zero =>
    intro oid l h
    cases oid with
    | none => exact h
    | some uid => exact absurd h (by simp [lineageAux])
  | succ m ih =>
    intro oid l h
    cases oid with
    | none => exact h
    | some uid =>
      simp only [lineageAux] at h ⊢
      cases hu : st.get_universe uid with
      | none => rw [hu] at h; exact h
      | some u =>
        rw [hu] at h
        have h' : (lineageAux st m u.parent_universe_id).map (u :: ·) = some l := h
        show (lineageAux st (m + 1) u.parent_universe_id).map (u :: ·) = some l
        cases hrec : lineageAux st m u.parent_universe_id with
        | none => rw [hrec] at h'; simp at h'
        | some l' =>
          rw [hrec] at h'
          rw [ih _ _ hrec]
          exact h'

theorem lineageAux_mono_le (st : DoltState) {f1 f2 : Nat} {oid : Option Nat}
    {l : List Universe} (h : lineageAux st f1 oid = some l) (hle : f1 ≤ f2) :
    lineageAux st f2 oid = some l := by
  induction f2, hle using Nat.le_induction with
  | base => exact h
  | succ m hm ih => exact lineageAux_mono st m oid l ih

theorem lineageAux_total (st : DoltState) (hwf : DepthWF st) :
    ∀ (d : Nat) (uid : Nat) (u : Universe),
      st.get_universe uid = some u → u.depth ≤ d →
      ∃ l, lineageAux st (d + 2) (some uid) = some l ∧
        LineageChain st (some uid) l ∧ l.head? = some u := by
  intro d
  induction d using Nat.strong_induction_on with
  | _ d ih =>
    intro uid u hu hd
    have hstep : lineageAux st (d + 2) (some uid) =
        (lineageAux st (d + 1) u.parent_universe_id).map (u :: ·) := by
      simp only [lineageAux]
      rw [hu]
    cases hpar : u.parent_universe_id with
    | none =>
      refine ⟨[u], ?_, LineageChain.step uid u [] hu
        (by rw [hpar]; exact LineageChain.done), rfl⟩
      rw [hstep, hpar]
      rfl
    | some pid =>
      cases hv : st.get_universe pid with
      | none =>
        refine ⟨[u], ?_, LineageChain.step uid u [] hu
          (by rw [hpar]; exact LineageChain.missing pid hv), rfl⟩
        rw [hstep, hpar]
        rw [show lineageAux st (d + 1) (some pid) = some [] from by
          simp only [lineageAux]; rw [hv]]
        rfl
      | some v =>
        have hmem : u ∈ (st.currentPartition).universes :=
          List.mem_of_find?_eq_some hu
        have hok := hwf u hmem
        unfold parentDepthOk at hok
        rw [hpar] at hok
        simp only [hv] at hok
        have hvd : v.depth < u.depth := by simpa using hok
        obtain ⟨l', hl', hchain', hhead'⟩ :=
          ih v.depth (lt_of_lt_of_le hvd hd) pid v hv (le_refl _)
        have hl'' : lineageAux st (d + 1) (some pid) = some l' :=
          lineageAux_mono_le st hl' (by omega)
        refine ⟨u :: l', ?_, LineageChain.step uid u l' hu
          (by rw [hpar]; exact hchain'), rfl⟩
        rw [hstep, hpar, hl'']
        rfl

/-- C8 amended: on every store state whose records have strictly decreasing
depth along resolvable parent links (the data-model invariant; the code can
loop forever on cyclic parent records, see the counterexample),
`get_universe_lineage` terminates — some fuel makes the loop finish — it
visits the parent chain, silently truncating at a null or unresolvable
parent, and returns the visited universes reversed into root-to-leaf order
with the queried universe last (and returns `[]` when the queried id does
not resolve). -/
theorem get_universe_lineage_terminates_of_acyclic
    (st : DoltState) (uid : Nat) (hwf : DepthWF st) :
    ∃ fuel l, lineageAux st fuel (some uid) = some l ∧
      get_universe_lineage st fuel uid = some l.reverse ∧
      LineageChain st (some uid) l ∧
      (∀ u, st.get_universe uid = some u →
        l.head? = some u ∧ l.reverse.getLast? = some u) ∧
      (st.get_universe uid = none → l = []) := by
  cases hu : st.get_universe uid with
  | none =>
    have h1 : lineageAux st 1 (some uid) = some [] := by
      simp only [lineageAux]
      rw [hu]
    refine ⟨1, [], h1, ?_, LineageChain.missing uid hu,
      fun u h => absurd h (by simp), fun _ => rfl⟩
    unfold get_universe_lineage
    rw [h1]
    rfl
  | some u =>
    obtain ⟨l, hl, hchain, hhead⟩ :=
      lineageAux_total st hwf u.depth uid u hu (le_refl _)
    refine ⟨u.depth + 2, l, hl, ?_, hchain, fun v hv => ?_,
      fun h => absurd h (by simp)⟩
    · unfold get_universe_lineage
      rw [hl]
      rfl
    · injection hv with hv
      subst hv
      exact ⟨hhead, by rw [List.getLast?_reverse]; exact hhead⟩

/-- The Fork-1 record of the concrete depth chain. -/
def forkU1 : Universe := ⟨2, "F1", "b1", some 1, 1, UniverseStatus.active, none, none, none, 0, 0⟩

/-- The Fork-2 (depth-2, fork of a fork) record of the concrete chain. -/
def forkU2 : Universe := ⟨3, "F2", "b2", some 2, 2, UniverseStatus.active, none, none, none, 0, 0⟩

/-- A store holding the three-record chain Prime ← F1 ← F2 on `main`. -/
def stChain : DoltState := ⟨[("main", ⟨[primeU, forkU1, forkU2], [], []⟩)], "main"⟩

/-- C8 witness: the termination theorem applied at the concrete three-deep
chain, from the depth-2 fork-of-a-fork. -/
theorem get_universe_lineage_terminates_of_acyclic_witness :
    ∃ fuel l, lineageAux stChain fuel (some 3) = some l ∧
      get_universe_lineage stChain fuel 3 = some l.reverse ∧
      LineageChain stChain (some 3) l ∧
      (∀ u, stChain.get_universe 3 = some u →
        l.head? = some u ∧ l.reverse.getLast? = some u) ∧
      (stChain.get_universe 3 = none → l = []) :=
  get_universe_lineage_terminates_of_acyclic stChain 3
    (by unfold DepthWF parentDepthOk; decide)

/-- Concrete check: the lineage of Prime in the chain store is `[Prime]`. -/
theorem lineage_prime_concrete : get_universe_lineage stChain 5 1 = some [primeU] := rfl

/-- Concrete check: the lineage of the depth-2 fork has length 3, root
first. -/
theorem lineage_depth2_concrete :
    get_universe_lineage stChain 5 3 = some [primeU, forkU1, forkU2] := rfl

/-! ## C9 — similarity search -/

/-- The external `gds.similarity.cosine` evaluated at the concrete
scenario's inputs: a stored vector identical to the query has cosine
similarity 1; the other stored vectors of the scenario are orthogonal to
the query, with cosine similarity 0.  (Only these values are used on
concrete inputs; the general theorem quantifies over the similarity
function.) -/
def cosAt (q e : List ℚ) : ℚ := if e = q then 1 else 0

namespace GraphState

theorem insertDesc_perm (x : Nat × ℚ) (l : List (Nat × ℚ)) :
    (insertDesc x l).Perm (x :: l) := by
  induction l with
  | nil => exact List.Perm.refl _
  | cons y ys ih =>
    unfold insertDesc
    by_cases h : x.2 ≤ y.2
    · rw [if_pos h]
      exact (ih.cons y).trans (List.Perm.swap x y ys)
    · rw [if_neg h]

theorem sortDesc_perm (l : List (Nat × ℚ)) : (sortDesc l).Perm l := by
  induction l with
  | nil => exact List.Perm.refl _
  | cons x xs ih =>
    exact (insertDesc_perm x (sortDesc xs)).trans (ih.cons x)

theorem sortedDesc_insertDesc (x : Nat × ℚ) (l : List (Nat × ℚ))
    (h : List.Pairwise (fun a b : Nat × ℚ => b.2 ≤ a.2) l) :
    List.Pairwise (fun a b : Nat × ℚ => b.2 ≤ a.2) (insertDesc x l) := by
  induction l with
  | nil => simp [insertDesc]
  | cons y ys ih =>
    rcases List.pairwise_cons.mp h with ⟨hy, hys⟩
    unfold insertDesc
    by_cases hc : x.2 ≤ y.2
    · rw [if_pos hc]
      refine List.Pairwise.cons ?_ (ih hys)
      intro z hz
      rcases List.mem_cons.mp ((insertDesc_perm x ys).mem_iff.mp hz) with h1 | h1
      · rw [h1]; exact hc
      · exact hy z h1
    · rw [if_neg hc]
      refine List.Pairwise.cons ?_ h
      intro z hz
      rcases List.mem_cons.mp hz with h1 | h1
      · rw [h1]; exact le_of_lt (lt_of_not_le hc)
      · exact le_trans (hy z h1) (le_of_lt (lt_of_not_le hc))

theorem sortedDesc_sortDesc (l : List (Nat × ℚ)) :
    List.Pairwise (fun a b : Nat × ℚ => b.2 ≤ a.2) (sortDesc l) := by
  induction l with
  | nil => simp [sortDesc]
  | cons x xs ih => exact sortedDesc_insertDesc x (sortDesc xs) ih

end GraphState

/-- C9 amended: `similarity_search` returns at most `limit` pairs, sorted by
descending similarity; every returned pair comes from an entity of the
universe with an embedding whose similarity is **strictly positive** (the
query filters `similarity > 0`, so zero- or negative-similarity entities are
omitted — this is the correction to the claim); and it is a top-`limit`
selection: any qualifying entity (embedding present, in the universe,
positive similarity) either appears in the result, or the result is already
full with every returned score at least as large. -/
theorem similarity_search_spec (sim : List ℚ → List ℚ → ℚ) (g : GraphState)
    (q : List ℚ) (uid limit : Nat) :
    (g.similarity_search sim q uid limit).length ≤ limit ∧
    List.Pairwise (fun a b : Nat × ℚ => b.2 ≤ a.2)
      (g.similarity_search sim q uid limit) ∧
    (∀ pr ∈ g.similarity_search sim q uid limit,
      0 < pr.2 ∧ ∃ n ∈ g.nodes, n.id = pr.1 ∧
        n.universe_id = some (GUniv.uid uid) ∧
        ∃ emb, n.embedding = some emb ∧ pr.2 = sim q emb) ∧
    (∀ n ∈ g.nodes, ∀ emb, n.embedding = some emb →
      n.universe_id = some (GUniv.uid uid) → 0 < sim q emb →
      (n.id, sim q emb) ∈ g.similarity_search sim q uid limit ∨
      ((∀ pr ∈ g.similarity_search sim q uid limit, sim q emb ≤ pr.2) ∧
        (g.similarity_search sim q uid limit).length = limit)) := by
  unfold GraphState.similarity_search
  refine ⟨List.length_take_le _ _, ?_, ?_, ?_⟩
  · exact List.Pairwise.sublist (List.take_sublist _ _)
      (GraphState.sortedDesc_sortDesc _)
  · intro pr hpr
    have h2 : pr ∈ GraphState.scoredCandidates sim g q uid :=
      (GraphState.sortDesc_perm _).mem_iff.mp (List.mem_of_mem_take hpr)
    unfold GraphState.scoredCandidates at h2
    obtain ⟨n, hn, hf⟩ := List.mem_filterMap.mp h2
    cases hemb : n.embedding with
    | none => rw [hemb] at hf; exact absurd hf (by simp)
    | some emb =>
      rw [hemb] at hf
      dsimp only at hf
      by_cases huid : n.universe_id = some (GUniv.uid uid)
      · rw [if_pos huid] at hf
        by_cases hs : 0 < sim q emb
        · rw [if_pos hs] at hf
          injection hf with hf
          rw [← hf]
          exact ⟨hs, n, hn, rfl, huid, emb, hemb, rfl⟩
        · rw [if_neg hs] at hf
          exact absurd hf (by simp)
      · rw [if_neg huid] at hf
        exact absurd hf (by simp)
  · intro n hn emb hemb huid hs
    have hmem0 : (n.id, sim q emb) ∈ GraphState.scoredCandidates sim g q uid := by
      unfold GraphState.scoredCandidates
      refine List.mem_filterMap.mpr ⟨n, hn, ?_⟩
      rw [hemb]
      dsimp only
      rw [if_pos huid, if_pos hs]
    have hmem1 : (n.id, sim q emb) ∈
        GraphState.sortDesc (GraphState.scoredCandidates sim g q uid) :=
      (GraphState.sortDesc_perm _).mem_iff.mpr hmem0
    have hsplit := List.take_append_drop limit
      (GraphState.sortDesc (GraphState.scoredCandidates sim g q uid))
    have hmem2 : (n.id, sim q emb) ∈
        (GraphState.sortDesc (GraphState.scoredCandidates sim g q uid)).take limit ++
        (GraphState.sortDesc (GraphState.scoredCandidates sim g q uid)).drop limit := by
      rw [hsplit]
      exact hmem1
    rcases List.mem_append.mp hmem2 with h | h
    · exact Or.inl h
    · refine Or.inr ⟨?_, ?_⟩
      · intro pr hpr
        have hp := GraphState.sortedDesc_sortDesc
          (GraphState.scoredCandidates sim g q uid)
        rw [← hsplit] at hp
        exact (List.pairwise_append.mp hp).2.2 pr hpr _ h
      · have hlen : limit <
            (GraphState.sortDesc (GraphState.scoredCandidates sim g q uid)).length := by
          by_contra hle
          push_neg at hle
          rw [List.drop_eq_nil_of_le hle] at h
          exact absurd h (by simp)
        rw [List.length_take]
        exact min_eq_left (le_of_lt hlen)

/-- The claim's own scenario: two entities of universe 7 with embeddings,
one identical to the query `[1,0,0]` and one orthogonal to it. -/
def gSim : GraphState :=
  { nodes := [⟨1, some "Dragon", some "character", some (GUniv.uid 7), false,
                some [1, 0, 0]⟩,
              ⟨2, some "Goblin", some "character", some (GUniv.uid 7), false,
                some [0, 1, 0]⟩],
    variantEdges := [] }

/-- C9 counterexample: both entities of universe 7 have embeddings and the
limit (10) allows both, yet the search returns only the identical one —
the orthogonal entity's cosine similarity is 0 and the query's
`WHERE similarity > 0` filter drops it, so the result does not consist of
the top-`limit` entities with embeddings as the claim states.  (The
identical vector does rank first with similarity exactly 1.) -/
theorem similarity_search_drops_zero_similarity :
    gSim.similarity_search cosAt [1, 0, 0] 7 10 = [(1, 1)] ∧
    (gSim.nodes.filter (fun n =>
      n.universe_id = some (GUniv.uid 7) && n.embedding.isSome)).length = 2 := by
  constructor <;> decide

/-- C9 witness: the amended theorem applied at the concrete scenario. -/
theorem similarity_search_spec_witness :
    (gSim.similarity_search cosAt [1, 0, 0] 7 10).length ≤ 10 ∧
    List.Pairwise (fun a b : Nat × ℚ => b.2 ≤ a.2)
      (gSim.similarity_search cosAt [1, 0, 0] 7 10) :=
  ⟨(similarity_search_spec cosAt gSim [1, 0, 0] 7 10).1,
   (similarity_search_spec cosAt gSim [1, 0, 0] 7 10).2.1⟩

end TTA
